import Mathlib

/-!
Verification of the EDF codec (OpenPSG/edf): a shallow embedding of the
header (de)serialization, the digital/physical sample scaling transform,
the record writer state machine and the per-signal reader.

Modelling conventions:
* Header text is a list of characters (`Str`); each character stands for one
  byte of the fixed-width ASCII header (EDF headers are ASCII).
* Go `float64` calibration values are modelled as exact rationals `ℚ`;
  `float64` → `int16` conversion is modelled as truncation toward zero
  followed by two's-complement wrapping, which is the documented behavioral
  contract of `convertPhysicalToDigital`.
* Go `int` / `int64` fields are modelled as unbounded `ℤ` (none of the
  verified properties involve 64-bit overflow).
* Fallible Go functions returning `error` become `Except Err`.
-/

namespace EDF

/-- Header text modelled as a list of characters, one per byte. -/
abbrev Str := List Char

/-- Error values surfaced by the codec, classifying the `error` values the
Go code builds with `fmt.Errorf`.  Width violations detected by
`writeChecked` (and by `formatPhysicalValue`, whose message is likewise a
too-long condition) are `fieldTooLong`; unparsable required header fields
are `malformedHeader`; truncated input is `shortRead`. -/
inductive Err where
  | fieldTooLong (value : Str) (width : Nat)
  | malformedHeader
  | shortRead
  | signalCountMismatch (expected actual : Int)
  | recordTooLarge (bytes : Int)
  | signalIndexOutOfRange
deriving DecidableEq

/-- Whitespace recognised by the model of Go `strings.TrimSpace`
(restricted to the ASCII whitespace characters; header fields are ASCII). -/
def isSpaceChar (c : Char) : Bool :=
  c = ' ' || c = '\t' || c = '\n' || c = '\r' || c = '\x0b' || c = '\x0c'

/-- Trim of leading whitespace. -/
def trimLeft (s : Str) : Str := s.dropWhile isSpaceChar

/-- Trim of trailing whitespace. -/
def trimRight (s : Str) : Str := (s.reverse.dropWhile isSpaceChar).reverse

/-- Model of Go `strings.TrimSpace`. -/
def trimChars (s : Str) : Str := trimRight (trimLeft s)

/-- Decimal digit character for a value below ten. -/
def digitChar (d : Nat) : Char := Char.ofNat (48 + d)

/-- Numeric value of a decimal digit character. -/
def digitVal (c : Char) : Nat := c.toNat - 48

/-- Test for an ASCII decimal digit. -/
def isDigitChar (c : Char) : Bool := 48 ≤ c.toNat && c.toNat ≤ 57

/-- Fuel-driven decimal printer for naturals (structural recursion so that
concrete instances reduce inside the kernel). -/
def natCharsAux : Nat → Nat → Str
  | 0, _ => []
  | fuel + 1, n => if n < 10 then [digitChar n] else natCharsAux fuel (n / 10) ++ [digitChar (n % 10)]

/-- Decimal representation of a natural number, as produced by Go `%d`. -/
def natChars (n : Nat) : Str := natCharsAux (n + 1) n

/-- Decimal representation of an integer, as produced by Go `%d`. -/
def intChars (i : Int) : Str := (if i < 0 then [ '-' ] else []) ++ natChars i.natAbs

/-- Value of a string of decimal digits. -/
def digitsVal (l : Str) : Nat := l.foldl (fun a c => 10 * a + digitVal c) 0

/-- Model of Go `strconv.Atoi`: an optional sign followed by one or more
decimal digits and nothing else, rejecting values outside the 64-bit
range. -/
def atoi (s : Str) : Option Int :=
  match s with
  | [] => none
  | c :: rest =>
    let ds : Str := if c = '-' || c = '+' then rest else s
    let neg : Bool := c = '-'
    if ds = [] then none
    else if ds.all isDigitChar then
      let v : Int := (digitsVal ds : Int)
      let v : Int := if neg then -v else v
      if v < -(2 ^ 63) || 2 ^ 63 - 1 < v then none else some v
    else none

/-- Decimal rational parser backing the model of `strconv.ParseFloat`:
an optional sign, a decimal mantissa with at most one point and at least
one digit, and an optional decimal exponent.  The value is exact (the Go
function rounds it to the nearest `float64`; the special forms `Inf`,
`NaN`, hex floats and digit-separating underscores are outside the
model). -/
def parseFloatQ (s : Str) : Option ℚ :=
  match s with
  | [] => none
  | c :: rest =>
    let body : Str := if c = '-' || c = '+' then rest else s
    let neg : Bool := c = '-'
    let mant : Str := body.takeWhile (fun x => !(x = 'e' || x = 'E'))
    let expPart : Str := body.dropWhile (fun x => !(x = 'e' || x = 'E'))
    let ip : Str := mant.takeWhile (fun x => !(x = '.'))
    let dotRest : Str := mant.dropWhile (fun x => !(x = '.'))
    let fp : Str := dotRest.drop 1
    if mant = [] then none
    else if (ip ++ fp) = [] then none
    else if !(ip ++ fp).all isDigitChar then none
    else if dotRest ≠ [] && !(dotRest.headD ' ' = '.') then none
    else
      let e : Option Int := match expPart with
        | [] => some 0
        | _ :: etail => atoi etail
      match e with
      | none => none
      | some ev =>
        let m : Int := (digitsVal (ip ++ fp) : Int)
        let m : Int := if neg then -m else m
        let shift : Int := ev - (fp.length : Int)
        some (if 0 ≤ shift then ((m * 10 ^ shift.toNat : Int) : ℚ)
              else Rat.divInt m (10 ^ (-shift).toNat))

/-- Model of the reader helper `parseInt`: `strconv.Atoi` on the trimmed
field, defaulting to `0` on any parse failure. -/
def parseInt (b : Str) : Int := (atoi (trimChars b)).getD 0

/-- Model of the reader helper `parseFloat`: `strconv.ParseFloat` on the
trimmed field, defaulting to `0` on any parse failure. -/
def parseFloat (b : Str) : ℚ := (parseFloatQ (trimChars b)).getD 0

/-- Left-justified space padding to a fixed width, as produced by
Go `fmt.Sprintf` with a width and the `-` flag (a longer value is kept
whole, never truncated). -/
def padChars (s : Str) (w : Nat) : Str := s ++ List.replicate (w - s.length) ' '

/-- Fixed-width field extraction from a byte block. -/
def fieldAt (b : Str) (off len : Nat) : Str := (b.drop off).take len

/-- Model of the writer helper `writeChecked`: refuse a value longer than
the declared fixed width, otherwise emit it left-justified and
space-padded.  (The Go helper also carries the field name, used only in
the error message.) -/
def writeChecked (value : Str) (width : Nat) : Except Err Str :=
  if width < value.length then .error (.fieldTooLong value width)
  else .ok (padChars value width)

/-- Floor of a rational (computable through integer floor division). -/
def ratFloor (q : ℚ) : Int := Int.fdiv q.num q.den

/-- Rounding to the nearest integer with ties to even, the rounding rule of
Go decimal formatting of `float64` values. -/
def rndEven (q : ℚ) : Int :=
  let f : Int := ratFloor q
  let r : ℚ := q - (f : ℚ)
  if r < 1 / 2 then f
  else if 1 / 2 < r then f + 1
  else if Int.emod f 2 = 0 then f else f + 1

/-- Two-decimal-place decimal form of a value, modelling
Go `fmt.Sprintf` with the `%.2f` verb on the exact value. -/
def format2 (v : ℚ) : Str :=
  let n : Int := rndEven (v * 100)
  let sgn : Str := if v < 0 then [ '-' ] else []
  let frac : Nat := n.natAbs % 100
  sgn ++ natChars (n.natAbs / 100) ++ [ '.' ] ++ (if frac < 10 then '0' :: natChars frac else natChars frac)

/-- Zero-decimal-place decimal form of a value, modelling `%.0f`. -/
def format0 (v : ℚ) : Str :=
  let n : Int := rndEven v
  (if v < 0 then [ '-' ] else []) ++ natChars n.natAbs

/-- Model of the writer helper `formatPhysicalValue`: try two decimal
places, fall back to none, and fail if even that overflows the 8-byte
field. -/
def formatPhysicalValue (v : ℚ) : Except Err Str :=
  let s := format2 v
  if 8 < s.length then
    let s0 := format0 v
    if 8 < s0.length then .error (.fieldTooLong s0 8)
    else .ok (padChars s0 8)
  else .ok (padChars s 8)

/-- Encoded physical-value field when encoding succeeds. -/
def physChars (v : ℚ) : Str :=
  match formatPhysicalValue v with
  | .ok s => s
  | .error _ => []

/-- Calendar timestamp at second granularity, the information carried by
the two 8-byte date and time header fields (Go holds a `time.Time`; the
wire format carries no sub-second part and no timezone). -/
structure DateTime where
  year : Nat
  month : Nat
  day : Nat
  hour : Nat
  minute : Nat
  second : Nat
deriving DecidableEq

/-- Two-digit zero-padded decimal form of a value below one hundred. -/
def pad2 (n : Nat) : Str := if n < 10 then '0' :: natChars n else natChars n

/-- Model of Go `Format` with layout `02.01.06` (day, month, two-digit
year). -/
def formatDate (t : DateTime) : Str :=
  pad2 t.day ++ [ '.' ] ++ pad2 t.month ++ [ '.' ] ++ pad2 (t.year % 100)

/-- Model of Go `Format` with layout `15.04.05` (hour, minute, second). -/
def formatTime (t : DateTime) : Str :=
  pad2 t.hour ++ [ '.' ] ++ pad2 t.minute ++ [ '.' ] ++ pad2 t.second

/-- Gregorian leap-year rule. -/
def isLeap (y : Nat) : Bool := y % 4 = 0 && (y % 100 ≠ 0 || y % 400 = 0)

/-- Days in a month of a given year. -/
def daysInMonth (m y : Nat) : Nat :=
  if m = 2 then (if isLeap y then 29 else 28)
  else if m = 4 || m = 6 || m = 9 || m = 11 then 30
  else 31

/-- Model of Go `time.Parse` with layout `02.01.06`: two strict two-digit
numbers and a two-digit year resolved through the 1969–2068 window, with
the calendar range checks `time.Parse` performs.  Returns
`(year, month, day)`. -/
def parseDate (s : Str) : Except Err (Nat × Nat × Nat) :=
  match s with
  | [d1, d2, c1, m1, m2, c2, y1, y2] =>
    if c1 = '.' && c2 = '.' && [d1, d2, m1, m2, y1, y2].all isDigitChar then
      let day := 10 * digitVal d1 + digitVal d2
      let mon := 10 * digitVal m1 + digitVal m2
      let yy := 10 * digitVal y1 + digitVal y2
      let year := if 69 ≤ yy then 1900 + yy else 2000 + yy
      if 1 ≤ mon && mon ≤ 12 && 1 ≤ day && day ≤ daysInMonth mon year then .ok (year, mon, day)
      else .error .malformedHeader
    else .error .malformedHeader
  | _ => .error .malformedHeader

/-- Model of Go `time.Parse` with layout `15.04.05`: three strict
two-digit numbers with the clock range checks.  Returns
`(hour, minute, second)`. -/
def parseTime (s : Str) : Except Err (Nat × Nat × Nat) :=
  match s with
  | [h1, h2, c1, m1, m2, c2, s1, s2] =>
    if c1 = '.' && c2 = '.' && [h1, h2, m1, m2, s1, s2].all isDigitChar then
      let hh := 10 * digitVal h1 + digitVal h2
      let mm := 10 * digitVal m1 + digitVal m2
      let ss := 10 * digitVal s1 + digitVal s2
      if hh ≤ 23 && mm ≤ 59 && ss ≤ 59 then .ok (hh, mm, ss)
      else .error .malformedHeader
    else .error .malformedHeader
  | _ => .error .malformedHeader

/-- Ceiling of a duration in nanoseconds to whole seconds, modelling
`int(math.Ceil(d.Seconds()))` on exactly representable values. -/
def ceilSecs (ns : Int) : Int := -(Int.ediv (-ns) 1000000000)

/-- Model of `time.ParseDuration` applied to the trimmed duration field
with an `s` unit appended: an optionally signed integer number of
seconds, returned in nanoseconds.  (The Go function also accepts
fractional forms, which the integer-emitting encoder never produces.) -/
def parseDurationNs (s : Str) : Except Err Int :=
  match atoi s with
  | some v => .ok (v * 1000000000)
  | none => .error .malformedHeader

/-- Per-channel calibration and layout description (`edf.Signal`). -/
structure Signal where
  label : Str
  transducerType : Str
  physicalDimension : Str
  physicalMin : ℚ
  physicalMax : ℚ
  digitalMin : Int
  digitalMax : Int
  prefiltering : Str
  samplesPerRecord : Int
  reserved : Str
deriving DecidableEq

instance : Inhabited Signal :=
  ⟨{ label := [], transducerType := [], physicalDimension := [], physicalMin := 0,
     physicalMax := 0, digitalMin := 0, digitalMax := 0, prefiltering := [],
     samplesPerRecord := 0, reserved := [] }⟩

/-- Recording-level header description (`edf.Header`); the record-duration
field is held in nanoseconds, as Go `time.Duration` does. -/
structure Header where
  version : Str
  patientId : Str
  recordingId : Str
  startTime : DateTime
  headerBytes : Int
  dataRecordDuration : Int
  dataRecords : Int
  signalCount : Int
  signals : List Signal
deriving DecidableEq

/-- Model of `Writer.writeHeader` (the checked variant): every field is
width-checked and emitted left-justified space-padded in the fixed order,
with `HeaderBytes` recomputed from the signal count; the result is the
encoded 256 + 256·n byte header block. -/
def writeHeader (hdr : Header) : Except Err Str := do
  let ver ← writeChecked hdr.version 8
  let pid ← writeChecked hdr.patientId 80
  let rid ← writeChecked hdr.recordingId 80
  let dat ← writeChecked (formatDate hdr.startTime) 8
  let tim ← writeChecked (formatTime hdr.startTime) 8
  let hbs ← writeChecked (intChars (256 + hdr.signalCount * 256)) 8
  let res ← writeChecked [] 44
  let drs ← writeChecked (intChars hdr.dataRecords) 8
  let dur ← writeChecked (intChars (ceilSecs hdr.dataRecordDuration)) 8
  let scs ← writeChecked (intChars hdr.signalCount) 4
  let labs ← hdr.signals.mapM (fun s => writeChecked s.label 16)
  let trans ← hdr.signals.mapM (fun s => writeChecked s.transducerType 80)
  let dims ← hdr.signals.mapM (fun s => writeChecked s.physicalDimension 8)
  let pmins ← hdr.signals.mapM (fun s => formatPhysicalValue s.physicalMin)
  let pmaxs ← hdr.signals.mapM (fun s => formatPhysicalValue s.physicalMax)
  let dmins ← hdr.signals.mapM (fun s => writeChecked (intChars s.digitalMin) 8)
  let dmaxs ← hdr.signals.mapM (fun s => writeChecked (intChars s.digitalMax) 8)
  let prefs ← hdr.signals.mapM (fun s => writeChecked s.prefiltering 80)
  let sprs ← hdr.signals.mapM (fun s => writeChecked (intChars s.samplesPerRecord) 8)
  let sres ← hdr.signals.mapM (fun _ => writeChecked [] 32)
  .ok (ver ++ (pid ++ (rid ++ (dat ++ (tim ++ (hbs ++ (res ++ (drs ++ (dur ++ (scs ++ (labs.flatten ++ (trans.flatten ++ (dims.flatten ++ (pmins.flatten ++ (pmaxs.flatten ++ (dmins.flatten ++ (dmaxs.flatten ++ (prefs.flatten ++ (sprs.flatten ++ (sres.flatten))))))))))))))))))))

/-- Per-signal fields of the decoded header: each of the twelve per-signal
blocks holds one fixed-width field for every signal in declaration order,
so signal `i` of `n` draws from the offsets below; the numeric
calibration fields default leniently through `parseInt` / `parseFloat`. -/
def decodeSignal (b : Str) (n i : Nat) : Signal :=
  { label := trimChars (fieldAt b (256 + 16 * i) 16)
    transducerType := trimChars (fieldAt b (256 + 16 * n + 80 * i) 80)
    physicalDimension := trimChars (fieldAt b (256 + 96 * n + 8 * i) 8)
    physicalMin := parseFloat (fieldAt b (256 + 104 * n + 8 * i) 8)
    physicalMax := parseFloat (fieldAt b (256 + 112 * n + 8 * i) 8)
    digitalMin := parseInt (fieldAt b (256 + 120 * n + 8 * i) 8)
    digitalMax := parseInt (fieldAt b (256 + 128 * n + 8 * i) 8)
    prefiltering := trimChars (fieldAt b (256 + 136 * n + 80 * i) 80)
    samplesPerRecord := parseInt (fieldAt b (256 + 216 * n + 8 * i) 8)
    reserved := trimChars (fieldAt b (256 + 224 * n + 32 * i) 32) }

/-- Model of `edf.Open` on the raw header bytes: read the fixed 256-byte
block, parse each field (trimmed) at its fixed offset in source order,
then read the `256 × signalCount` signal description block.  A short
input or an unparsable required numeric/date field is an error; the
per-signal calibration fields are lenient.  (Go allocates
`make([]Signal, signalCount)` and would panic on a negative count; no
decodable input in the verified properties carries one.) -/
def Open (b : Str) : Except Err Header :=
  if b.length < 256 then .error .shortRead
  else do
    let dt ← parseDate (trimChars (fieldAt b 168 8))
    let tm ← parseTime (trimChars (fieldAt b 176 8))
    let hb ← match atoi (trimChars (fieldAt b 184 8)) with
      | some v => Except.ok v
      | none => Except.error Err.malformedHeader
    let drc ← match atoi (trimChars (fieldAt b 236 8)) with
      | some v => Except.ok v
      | none => Except.error Err.malformedHeader
    let dur ← parseDurationNs (trimChars (fieldAt b 244 8))
    let sc ← match atoi (trimChars (fieldAt b 252 4)) with
      | some v => Except.ok v
      | none => Except.error Err.malformedHeader
    let n := sc.toNat
    if b.length < 256 + 256 * n then .error .shortRead
    else
      .ok { version := trimChars (fieldAt b 0 8)
            patientId := trimChars (fieldAt b 8 80)
            recordingId := trimChars (fieldAt b 88 80)
            startTime := { year := dt.1, month := dt.2.1, day := dt.2.2,
                           hour := tm.1, minute := tm.2.1, second := tm.2.2 }
            headerBytes := hb
            dataRecordDuration := dur
            dataRecords := drc
            signalCount := sc
            signals := (List.range n).map (decodeSignal b n) }

/-- Decode entry point on a byte store (bytes as naturals). -/
def OpenFile (file : List Nat) : Except Err Header := Open (file.map Char.ofNat)

/-- Truncation of a rational toward zero, the rounding of a Go
float-to-integer conversion. -/
def ratTrunc (q : ℚ) : Int := Int.tdiv q.num q.den

/-- Reduction of an integer into the signed 16-bit range by
two's-complement wrapping, the modelled behavior of the Go `int16`
conversion in `convertPhysicalToDigital`. -/
def int16Wrap (n : Int) : Int := Int.emod (n + 32768) 65536 - 32768

/-- Model of `convertPhysicalToDigital`: guard equal physical bounds,
apply the affine map, truncate toward zero and wrap to 16 bits. -/
def convertPhysicalToDigital (physical pmin pmax : ℚ) (dmin dmax : Int) : Int :=
  if pmax = pmin then 0
  else int16Wrap (ratTrunc ((physical - pmin) * ((dmax - dmin : Int) : ℚ) / (pmax - pmin) + (dmin : ℚ)))

/-- Model of `convertDigitalToPhysical`: guard equal digital bounds, then
apply the inverse affine map. -/
def convertDigitalToPhysical (digital : Int) (dmin dmax : Int) (pmin pmax : ℚ) : ℚ :=
  if dmax = dmin then 0
  else pmin + ((digital : ℚ) - (dmin : ℚ)) * (pmax - pmin) / ((dmax - dmin : Int) : ℚ)

/-- Little-endian byte pair of a signed 16-bit sample code. -/
def int16LE (d : Int) : List Nat :=
  let u := (Int.emod d 65536).toNat
  [u % 256, u / 256]

/-- Signed 16-bit value of a little-endian byte pair
(`int16(binary.LittleEndian.Uint16(buf))`). -/
def int16FromLE (b0 b1 : Nat) : Int :=
  let u := b0 + 256 * b1
  if 32768 ≤ u then (u : Int) - 65536 else (u : Int)

/-- Bytes of an encoded text block. -/
def strBytes (s : Str) : List Nat := s.map Char.toNat

/-- Overwrite of a byte store at a position (the store is long enough at
every use below, so no zero-fill gap arises). -/
def writeAt (file : List Nat) (off : Nat) (data : List Nat) : List Nat :=
  file.take off ++ data ++ file.drop (off + data.length)

/-- State of `edf.Writer`: the header (mutable in `HeaderBytes` and
`DataRecords`), the running record count, and the byte sink with its
write position. -/
structure EDFWriter where
  hdr : Header
  dataRecords : Int
  file : List Nat
  pos : Nat
deriving DecidableEq

/-- Model of `edf.Create` on a fresh sink: force the record count to the
`-1` sentinel and write the provisional header at offset 0. -/
def Create (hdr : Header) : Except Err EDFWriter :=
  let hdr1 : Header := { hdr with dataRecords := -1 }
  match writeHeader hdr1 with
  | .error e => .error e
  | .ok c =>
    .ok { hdr := { hdr1 with headerBytes := 256 + hdr1.signalCount * 256 },
          dataRecords := 0,
          file := strBytes c,
          pos := (strBytes c).length }

/-- Total sample count of a record argument. -/
def totalSamples (signals : List (List ℚ)) : Nat := (signals.map List.length).sum

/-- Sample bytes of one record: every channel's samples in signal order,
each scaled and emitted as a 2-byte little-endian code.  (Go indexes
`hdr.Signals[i]` for `i` below `SignalCount`; the zip realises the same
pairing for the states reachable from `Create`.) -/
def recordBytes (hdr : Header) (signals : List (List ℚ)) : List Nat :=
  (hdr.signals.zip signals).flatMap (fun p =>
    p.2.flatMap (fun sample =>
      int16LE (convertPhysicalToDigital sample p.1.physicalMin p.1.physicalMax p.1.digitalMin p.1.digitalMax)))

/-- Model of `Writer.WriteRecord`: check the channel count, check the
61440-byte record ceiling, then append the encoded samples at the current
position and bump the record count. -/
def WriteRecord (ew : EDFWriter) (signals : List (List ℚ)) : Except Err EDFWriter :=
  if (signals.length : Int) ≠ ew.hdr.signalCount then
    .error (.signalCountMismatch ew.hdr.signalCount signals.length)
  else if 61440 < 2 * (totalSamples signals : Int) then
    .error (.recordTooLarge (2 * totalSamples signals))
  else
    let data := recordBytes ew.hdr signals
    .ok { ew with file := writeAt ew.file ew.pos data,
                  pos := ew.pos + data.length,
                  dataRecords := ew.dataRecords + 1 }

/-- Model of `Writer.Close`: finalize the record count and rewrite the
header at offset 0. -/
def Close (ew : EDFWriter) : Except Err EDFWriter :=
  let hdr1 : Header := { ew.hdr with dataRecords := ew.dataRecords }
  match writeHeader hdr1 with
  | .error e => .error e
  | .ok c =>
    .ok { ew with hdr := { hdr1 with headerBytes := 256 + hdr1.signalCount * 256 },
                  file := writeAt ew.file 0 (strBytes c),
                  pos := (strBytes c).length }

/-- Model of `edf.Reader`: the random-access byte source content and the
parsed header. -/
structure Reader where
  r : List Nat
  hdr : Header

/-- End-of-data and wrapped I/O failure conditions of `SignalReader.Read`
(`io.EOF` is the normal terminal condition). -/
inductive ReadError where
  | eof
  | ioFailure
deriving DecidableEq

/-- State of `edf.SignalReader`: source, header, signal index, cursor and
the precomputed record geometry. -/
structure SignalReader where
  r : List Nat
  hdr : Header
  signalIndex : Nat
  currentRecord : Nat
  currentSample : Nat
  recordSize : Int
  signalOffset : Int
  samplesPerRecord : Int

/-- Model of `Reader.Signal`: validate the index and precompute the record
size (sum of all signals' per-record byte spans) and this signal's byte
offset (the same sum over preceding signals only). -/
def Reader.Signal (er : Reader) (signalIndex : Int) : Except Err SignalReader :=
  if signalIndex < 0 || (er.hdr.signals.length : Int) ≤ signalIndex then
    .error .signalIndexOutOfRange
  else
    let idx := signalIndex.toNat
    .ok { r := er.r
          hdr := er.hdr
          signalIndex := idx
          currentRecord := 0
          currentSample := 0
          recordSize := (er.hdr.signals.map (fun s => s.samplesPerRecord * 2)).sum
          signalOffset := ((er.hdr.signals.take idx).map (fun s => s.samplesPerRecord * 2)).sum
          samplesPerRecord := (er.hdr.signals.getD idx default).samplesPerRecord }

/-- Read of one 2-byte sample code at an absolute position, failing like a
seek or short read past the end of the source. -/
def readSample (file : List Nat) (pos : Int) : Option Int :=
  if 0 ≤ pos ∧ pos + 2 ≤ (file.length : Int) then
    some (int16FromLE (file.getD pos.toNat 0) (file.getD (pos.toNat + 1) 0))
  else none

/-- Model of `SignalReader.Read` into a buffer of `k` slots: per slot,
stop with `io.EOF` once the record cursor reaches `DataRecords`,
otherwise seek to the computed absolute position, decode the little-endian
code through `convertDigitalToPhysical`, and advance the cursor with
rollover at `samplesPerRecord`.  Returns the values produced, the final
reader state and the terminal condition (`none` when the buffer was
filled). -/
def SignalReader.Read (sr : SignalReader) : Nat → (List ℚ × SignalReader × Option ReadError)
  | 0 => ([], sr, none)
  | k + 1 =>
    if sr.hdr.dataRecords ≤ (sr.currentRecord : Int) then ([], sr, some .eof)
    else
      let pos : Int := sr.hdr.headerBytes + (sr.currentRecord : Int) * sr.recordSize
        + sr.signalOffset + ((sr.currentSample * 2 : Nat) : Int)
      match readSample sr.r pos with
      | none => ([], sr, some .ioFailure)
      | some d =>
        let sig := sr.hdr.signals.getD sr.signalIndex default
        let v := convertDigitalToPhysical d sig.digitalMin sig.digitalMax sig.physicalMin sig.physicalMax
        let sr1 : SignalReader :=
          if sr.samplesPerRecord ≤ ((sr.currentSample + 1 : Nat) : Int) then
            { sr with currentSample := 0, currentRecord := sr.currentRecord + 1 }
          else
            { sr with currentSample := sr.currentSample + 1 }
        let rest := SignalReader.Read sr1 k
        (v :: rest.1, rest.2.1, rest.2.2)

/-! Generic inversion and composition helpers for `Except` and `mapM`. -/

theorem except_bind_ok {α β : Type} {x : Except Err α} {f : α → Except Err β} {b : β}
    (h : x >>= f = .ok b) : ∃ a, x = .ok a ∧ f a = .ok b := by
  cases x with
  | ok a => exact ⟨a, rfl, h⟩
  | error e => simp [Bind.bind, Except.bind] at h

theorem mapM_ok_of {α β : Type} (f : α → Except Err β) (g : α → β) (l : List α)
    (h : ∀ x ∈ l, f x = .ok (g x)) : l.mapM f = .ok (l.map g) := by
  induction l with
  | nil => rfl
  | cons a t ih =>
    rw [List.mapM_cons, h a (by simp)]
    rw [ih (fun x hx => h x (by simp [hx]))]
    rfl

theorem mapM_ok_mem {α β : Type} {f : α → Except Err β} {l : List α} {ys : List β}
    (h : l.mapM f = .ok ys) : ∀ x ∈ l, ∃ y, f x = .ok y := by
  induction l generalizing ys with
  | nil => simp
  | cons a t ih =>
    rw [List.mapM_cons] at h
    obtain ⟨y, hy, h2⟩ := except_bind_ok h
    obtain ⟨ys1, hys1, _⟩ := except_bind_ok h2
    intro x hx
    rw [List.mem_cons] at hx
    rcases hx with rfl | hx
    · exact ⟨y, hy⟩
    · exact ih hys1 x hx

theorem mapM_tooLong {α β : Type} {f : α → Except Err β} (l : List α)
    (hf : ∀ x ∈ l, (∃ y, f x = .ok y) ∨ ∃ v w, f x = .error (.fieldTooLong v w)) :
    (∃ ys, l.mapM f = .ok ys) ∨ ∃ v w, l.mapM f = .error (.fieldTooLong v w) := by
  induction l with
  | nil => exact .inl ⟨[], rfl⟩
  | cons a t ih =>
    rcases hf a (by simp) with ⟨y, hy⟩ | ⟨v, w, hy⟩
    · rcases ih (fun x hx => hf x (by simp [hx])) with ⟨ys, hys⟩ | ⟨v, w, hys⟩
      · exact .inl ⟨y :: ys, by rw [List.mapM_cons, hy, hys]; rfl⟩
      · exact .inr ⟨v, w, by rw [List.mapM_cons, hy, hys]; rfl⟩
    · exact .inr ⟨v, w, by rw [List.mapM_cons, hy]; rfl⟩

/-! Extraction lemmas for fixed-width fields of a concatenated block. -/

theorem fieldAt_here (a r : Str) (w : Nat) (ha : a.length = w) :
    fieldAt (a ++ r) 0 w = a := by
  rw [fieldAt, List.drop_zero, ← ha, List.take_left]

theorem fieldAt_peel {a : Str} (r : Str) {la off off' : Nat} (w : Nat)
    (ha : a.length = la) (hoff : off = la + off') :
    fieldAt (a ++ r) off w = fieldAt r off' w := by
  subst ha hoff
  rw [fieldAt, List.drop_append, fieldAt]

theorem flatten_length_const {w : Nat} {L : List Str} (hw : ∀ x ∈ L, x.length = w) :
    L.flatten.length = w * L.length := by
  induction L with
  | nil => simp
  | cons x t ih =>
    rw [List.flatten_cons, List.length_append, hw x (by simp),
      ih (fun y hy => hw y (by simp [hy])), List.length_cons, Nat.mul_succ]
    omega

theorem chunk_extract {w : Nat} {L : List Str} (R : Str) {i : Nat}
    (hw : ∀ x ∈ L, x.length = w) (hi : i < L.length) :
    fieldAt (L.flatten ++ R) (w * i) w = L.getD i [] := by
  induction L generalizing R i with
  | nil => simp at hi
  | cons x t ih =>
    rw [List.flatten_cons, List.append_assoc]
    cases i with
    | zero =>
      rw [Nat.mul_zero, fieldAt_here _ _ _ (hw x (by simp))]
      rfl
    | succ j =>
      rw [fieldAt_peel _ w (hw x (by simp))
        (show w * (j + 1) = w + w * j by rw [Nat.mul_succ]; omega), List.getD_cons_succ]
      exact ih R (fun y hy => hw y (by simp [hy])) (by simpa using hi)

/-! Properties of trimming and padding. -/

theorem dropWhile_eq_self_of_all {p : Char → Bool} {l : Str}
    (h : ∀ c ∈ l, p c = false) : l.dropWhile p = l := by
  cases l with
  | nil => rfl
  | cons c t => rw [List.dropWhile_cons, h c (by simp)]; simp

theorem trim_of_noSpace {l : Str} (h : ∀ c ∈ l, isSpaceChar c = false) : trimChars l = l := by
  rw [trimChars, trimLeft, trimRight, dropWhile_eq_self_of_all h,
    dropWhile_eq_self_of_all (fun c hc => h c (List.mem_reverse.mp hc)), List.reverse_reverse]

theorem dropWhile_spaces_append (k : Nat) (m : Str) :
    (List.replicate k ' ' ++ m).dropWhile isSpaceChar = m.dropWhile isSpaceChar := by
  induction k with
  | zero => rfl
  | succ j ih => rw [List.replicate_succ, List.cons_append, List.dropWhile_cons]; simp [isSpaceChar, ih]

theorem trimRight_append_spaces (l : Str) (k : Nat) :
    trimRight (l ++ List.replicate k ' ') = trimRight l := by
  rw [trimRight, trimRight, List.reverse_append, List.reverse_replicate, dropWhile_spaces_append]

theorem trimRight_length_le (l : Str) : (trimRight l).length ≤ l.length := by
  rw [trimRight, List.length_reverse]
  calc (l.reverse.dropWhile isSpaceChar).length ≤ l.reverse.length :=
        (List.dropWhile_sublist _).length_le
  _ = l.length := List.length_reverse l

theorem trim_head_not_space {c : Char} {cs : Str} (h : trimChars (c :: cs) = c :: cs) :
    isSpaceChar c = false := by
  by_contra hc
  rw [Bool.not_eq_false] at hc
  have h1 : trimLeft (c :: cs) = cs.dropWhile isSpaceChar := by
    rw [trimLeft, List.dropWhile_cons, hc]; simp
  have h2 : (trimChars (c :: cs)).length ≤ cs.length := by
    rw [trimChars, h1]
    calc (trimRight (cs.dropWhile isSpaceChar)).length
        ≤ (cs.dropWhile isSpaceChar).length := trimRight_length_le _
    _ ≤ cs.length := (List.dropWhile_sublist _).length_le
  rw [h] at h2
  simp at h2

theorem trim_pad {s : Str} (w : Nat) (hs : trimChars s = s) :
    trimChars (padChars s w) = s := by
  rw [padChars]
  cases s with
  | nil =>
    rw [List.nil_append, trimChars, trimLeft, List.dropWhile_replicate]
    simp [isSpaceChar, trimRight]
  | cons c cs =>
    have hc := trim_head_not_space hs
    have hleft : trimLeft ((c :: cs) ++ List.replicate (w - (c :: cs).length) ' ')
        = (c :: cs) ++ List.replicate (w - (c :: cs).length) ' ' := by
      rw [trimLeft, List.cons_append, List.dropWhile_cons, hc]; simp
    have hleft2 : trimLeft (c :: cs) = c :: cs := by
      rw [trimLeft, List.dropWhile_cons, hc]; simp
    rw [trimChars, hleft, trimRight_append_spaces]
    rw [trimChars, hleft2] at hs
    exact hs

theorem padChars_length {s : Str} {w : Nat} (h : s.length ≤ w) :
    (padChars s w).length = w := by
  rw [padChars, List.length_append, List.length_replicate]
  omega

theorem padChars_eq_self {s : Str} (h : s.length = 8) : padChars s 8 = s := by
  rw [padChars, h]
  simp

/-! Properties of the decimal printer and of `atoi`. -/

theorem digit_isDigit {d : Nat} (h : d < 10) : isDigitChar (digitChar d) = true := by
  interval_cases d <;> decide

theorem digitVal_digitChar {d : Nat} (h : d < 10) : digitVal (digitChar d) = d := by
  interval_cases d <;> decide

theorem digit_not_space {d : Nat} (h : d < 10) : isSpaceChar (digitChar d) = false := by
  interval_cases d <;> decide

theorem digit_ne_minus {d : Nat} (h : d < 10) : (digitChar d = '-') = False := by
  interval_cases d <;> decide

theorem digit_ne_plus {d : Nat} (h : d < 10) : (digitChar d = '+') = False := by
  interval_cases d <;> decide

theorem natCharsAux_digits {fuel n : Nat} : ∀ c ∈ natCharsAux fuel n, isDigitChar c = true := by
  induction fuel generalizing n with
  | zero => simp [natCharsAux]
  | succ f ih =>
    intro c hc
    rw [natCharsAux] at hc
    by_cases h : n < 10
    · rw [if_pos h] at hc
      simp at hc
      rw [hc]; exact digit_isDigit h
    · rw [if_neg h] at hc
      rw [List.mem_append] at hc
      rcases hc with hc | hc
      · exact ih c hc
      · simp at hc
        rw [hc]; exact digit_isDigit (Nat.mod_lt _ (by omega))

theorem natChars_digits {n : Nat} : ∀ c ∈ natChars n, isDigitChar c = true :=
  natCharsAux_digits

theorem natChars_ne_nil (n : Nat) : natChars n ≠ [] := by
  rw [natChars, natCharsAux]
  by_cases h : n < 10 <;> simp [h]

theorem isDigit_not_space {c : Char} (h : isDigitChar c = true) : isSpaceChar c = false := by
  rw [isDigitChar] at h
  simp only [Bool.and_eq_true, decide_eq_true_eq] at h
  rw [isSpaceChar]
  have hne : ∀ d : Char, d.toNat < 48 → c = d → False := by
    intro d hd hcd
    rw [hcd] at h
    omega
  simp only [Bool.or_eq_false_iff, decide_eq_false_iff_not]
  refine ⟨⟨⟨⟨⟨?_, ?_⟩, ?_⟩, ?_⟩, ?_⟩, ?_⟩ <;> exact fun hc => hne _ (by decide) hc

theorem intChars_noSpace {i : Int} : ∀ c ∈ intChars i, isSpaceChar c = false := by
  intro c hc
  rw [intChars] at hc
  rw [List.mem_append] at hc
  rcases hc with hc | hc
  · by_cases h : i < 0
    · rw [if_pos h] at hc; simp at hc; rw [hc]; decide
    · rw [if_neg h] at hc; simp at hc
  · exact isDigit_not_space (natChars_digits c hc)

theorem trim_intChars (i : Int) : trimChars (intChars i) = intChars i :=
  trim_of_noSpace intChars_noSpace

theorem digitsVal_append_one (l : Str) (c : Char) :
    digitsVal (l ++ [c]) = 10 * digitsVal l + digitVal c := by
  rw [digitsVal, digitsVal, List.foldl_append]
  rfl

theorem digitsVal_natCharsAux {fuel n : Nat} (h : n < 10 ^ fuel) :
    digitsVal (natCharsAux fuel n) = n := by
  induction fuel generalizing n with
  | zero => simp at h; simp [h, natCharsAux, digitsVal]
  | succ f ih =>
    rw [natCharsAux]
    by_cases hn : n < 10
    · rw [if_pos hn]
      show 10 * 0 + digitVal (digitChar n) = n
      rw [digitVal_digitChar hn]
      omega
    · rw [if_neg hn, digitsVal_append_one,
        ih (by rw [Nat.div_lt_iff_lt_mul (by omega)]; rw [pow_succ] at h; omega),
        digitVal_digitChar (Nat.mod_lt _ (by omega))]
      omega

theorem digitsVal_natChars (n : Nat) : digitsVal (natChars n) = n := by
  rw [natChars]
  refine digitsVal_natCharsAux ?_
  calc n < 2 ^ n := Nat.lt_two_pow _
  _ ≤ 10 ^ n := Nat.pow_le_pow_left (by omega) _
  _ ≤ 10 ^ (n + 1) := Nat.pow_le_pow_right (by omega) (by omega)

theorem digitsVal_foldl_bound {l : Str} (hd : ∀ c ∈ l, isDigitChar c = true) :
    ∀ a : Nat, l.foldl (fun a c => 10 * a + digitVal c) a < (a + 1) * 10 ^ l.length := by
  induction l with
  | nil => intro a; simp
  | cons c t ih =>
    intro a
    rw [List.foldl_cons]
    have hdv : digitVal c ≤ 9 := by
      have := hd c (by simp)
      rw [isDigitChar] at this
      simp only [Bool.and_eq_true, decide_eq_true_eq] at this
      rw [digitVal]; omega
    calc List.foldl (fun a c => 10 * a + digitVal c) (10 * a + digitVal c) t
        < (10 * a + digitVal c + 1) * 10 ^ t.length :=
          ih (fun x hx => hd x (by simp [hx])) _
    _ ≤ ((a + 1) * 10) * 10 ^ t.length := by
          have : 10 * a + digitVal c + 1 ≤ (a + 1) * 10 := by omega
          exact Nat.mul_le_mul_right _ this
    _ = (a + 1) * 10 ^ (c :: t).length := by
          rw [List.length_cons, pow_succ]
          ring

theorem digitsVal_lt {l : Str} (hd : ∀ c ∈ l, isDigitChar c = true) :
    digitsVal l < 10 ^ l.length := by
  have := digitsVal_foldl_bound hd 0
  rw [digitsVal]
  omega

theorem natChars_value_lt {n : Nat} {k : Nat} (h : (natChars n).length ≤ k) : n < 10 ^ k := by
  have h1 : digitsVal (natChars n) < 10 ^ (natChars n).length :=
    digitsVal_lt natChars_digits
  rw [digitsVal_natChars] at h1
  calc n < 10 ^ (natChars n).length := h1
  _ ≤ 10 ^ k := Nat.pow_le_pow_right (by omega) h

theorem natCharsAux_length_le {fuel n k : Nat} (h : n < 10 ^ k) (hk : 1 ≤ k) :
    (natCharsAux fuel n).length ≤ k := by
  induction fuel generalizing n k with
  | zero => simp [natCharsAux]
  | succ f ih =>
    rw [natCharsAux]
    by_cases hn : n < 10
    · rw [if_pos hn]; simpa using hk
    · rw [if_neg hn, List.length_append]
      have hk2 : 2 ≤ k := by
        by_contra hkk
        have : k = 1 := by omega
        rw [this] at h
        simp at h
        omega
      have : n / 10 < 10 ^ (k - 1) := by
        rw [Nat.div_lt_iff_lt_mul (by omega)]
        have : 10 ^ (k - 1) * 10 = 10 ^ k := by
          rw [← pow_succ]
          congr 1
          omega
        omega
      have := ih this (by omega)
      simp
      omega

theorem natChars_length_le {n k : Nat} (h : n < 10 ^ k) (hk : 1 ≤ k) :
    (natChars n).length ≤ k :=
  natCharsAux_length_le h hk

theorem digit_ne_sign {c : Char} (h : isDigitChar c = true) : (c = '-' || c = '+') = false := by
  rw [isDigitChar] at h
  simp only [Bool.and_eq_true, decide_eq_true_eq] at h
  simp only [Bool.or_eq_false_iff, decide_eq_false_iff_not]
  constructor
  · intro hc; subst hc; exact absurd h (by decide)
  · intro hc; subst hc; exact absurd h (by decide)

theorem atoi_digits {l : Str} (hne : l ≠ []) (hd : ∀ c ∈ l, isDigitChar c = true)
    (hv : digitsVal l < 2 ^ 63) : atoi l = some ((digitsVal l : Int)) := by
  obtain ⟨c, rest, rfl⟩ := List.exists_cons_of_ne_nil hne
  have hc := hd c (by simp)
  rw [atoi]
  simp only [digit_ne_sign hc, Bool.false_eq_true, if_false]
  rw [if_neg (by simp)]
  rw [if_pos (List.all_eq_true.mpr hd)]
  rw [if_neg ?hbound]
  · have hneg : (c = '-') = False := by
      simp only [eq_iff_iff, iff_false]
      intro hcm
      subst hcm
      exact absurd hc (by decide)
    simp [hneg]
  case hbound =>
    simp only [Bool.or_eq_true, decide_eq_true_eq, not_or]
    have hdv : (0 : Int) ≤ (digitsVal (c :: rest) : Int) := Int.natCast_nonneg _
    have hcm : (c = '-') = False := by
      simp only [eq_iff_iff, iff_false]
      intro hcm
      subst hcm
      exact absurd hc (by decide)
    simp only [hcm, if_false]
    omega

theorem atoi_neg_digits {l : Str} (hne : l ≠ []) (hd : ∀ c ∈ l, isDigitChar c = true)
    (hv : digitsVal l ≤ 2 ^ 63) : atoi ('-' :: l) = some (-(digitsVal l : Int)) := by
  rw [atoi]
  simp only [decide_True, Bool.true_or, if_true, if_pos]
  rw [if_neg hne, if_pos (List.all_eq_true.mpr hd)]
  rw [if_neg ?hbound]
  case hbound =>
    simp only [Bool.or_eq_true, decide_eq_true_eq, not_or]
    omega

theorem intChars_value_lt {i : Int} {k : Nat} (hk : 1 ≤ k) (h : (intChars i).length ≤ k) :
    i.natAbs < 10 ^ k := by
  rw [intChars, List.length_append] at h
  by_cases hi : i < 0
  · rw [if_pos hi] at h
    simp at h
    have : (natChars i.natAbs).length ≤ k - 1 := by omega
    calc i.natAbs < 10 ^ (k - 1) := natChars_value_lt this
    _ ≤ 10 ^ k := Nat.pow_le_pow_right (by omega) (by omega)
  · rw [if_neg hi] at h
    simp at h
    exact natChars_value_lt h

theorem atoi_intChars {i : Int} (h : (intChars i).length ≤ 8) : atoi (intChars i) = some i := by
  have hval : i.natAbs < 10 ^ 8 := intChars_value_lt (by omega) h
  by_cases hi : i < 0
  · rw [intChars, if_pos hi, List.singleton_append]
    rw [atoi_neg_digits (natChars_ne_nil _) natChars_digits
      (by rw [digitsVal_natChars]; omega)]
    rw [digitsVal_natChars]
    congr 1
    omega
  · rw [intChars, if_neg hi, List.nil_append]
    rw [atoi_digits (natChars_ne_nil _) natChars_digits
      (by rw [digitsVal_natChars]; omega)]
    rw [digitsVal_natChars]
    congr 1
    omega

theorem atoi_trim_pad_intChars {i : Int} (w : Nat) (h : (intChars i).length ≤ 8) :
    atoi (trimChars (padChars (intChars i) w)) = some i := by
  rw [trim_pad w (trim_intChars i), atoi_intChars h]

theorem parseInt_pad_intChars {i : Int} (w : Nat) (h : (intChars i).length ≤ 8) :
    parseInt (padChars (intChars i) w) = i := by
  rw [parseInt, atoi_trim_pad_intChars w h]
  rfl

/-! Round trip of the date and time fields. -/

theorem natCharsAux_single {fuel n : Nat} (hf : 0 < fuel) (h : n < 10) :
    natCharsAux fuel n = [digitChar n] := by
  cases fuel with
  | zero => omega
  | succ f => rw [natCharsAux, if_pos h]

theorem natChars_single {n : Nat} (h : n < 10) : natChars n = [digitChar n] :=
  natCharsAux_single (by omega) h

theorem natChars_double {n : Nat} (h1 : 10 ≤ n) (h2 : n ≤ 99) :
    natChars n = [digitChar (n / 10), digitChar (n % 10)] := by
  rw [natChars, natCharsAux, if_neg (by omega),
    natCharsAux_single (by omega) (by omega)]
  rfl

theorem pad2_eq {n : Nat} (h : n ≤ 99) : pad2 n = [digitChar (n / 10), digitChar (n % 10)] := by
  rw [pad2]
  by_cases hn : n < 10
  · rw [if_pos hn, natChars_single hn]
    have h1 : n / 10 = 0 := by omega
    have h2 : n % 10 = n := by omega
    rw [h1, h2]
    have h0 : digitChar 0 = '0' := by decide
    rw [h0]
  · rw [if_neg hn, natChars_double (by omega) h]

theorem daysInMonth_le (m y : Nat) : daysInMonth m y ≤ 31 := by
  rw [daysInMonth]
  split
  · split <;> omega
  · split <;> omega

theorem formatDate_eq {t : DateTime} (hd : t.day ≤ 99) (hm : t.month ≤ 99) :
    formatDate t = [digitChar (t.day / 10), digitChar (t.day % 10), '.',
      digitChar (t.month / 10), digitChar (t.month % 10), '.',
      digitChar (t.year % 100 / 10), digitChar (t.year % 100 % 10)] := by
  rw [formatDate, pad2_eq hd, pad2_eq hm, pad2_eq (show t.year % 100 ≤ 99 by omega)]
  rfl

theorem formatTime_eq {t : DateTime} (hh : t.hour ≤ 99) (hm : t.minute ≤ 99) (hs : t.second ≤ 99) :
    formatTime t = [digitChar (t.hour / 10), digitChar (t.hour % 10), '.',
      digitChar (t.minute / 10), digitChar (t.minute % 10), '.',
      digitChar (t.second / 10), digitChar (t.second % 10)] := by
  rw [formatTime, pad2_eq hh, pad2_eq hm, pad2_eq hs]
  rfl

theorem six_digits_noSpace {a b c d e f : Nat} (ha : a < 10) (hb : b < 10) (hc : c < 10)
    (hd : d < 10) (he : e < 10) (hf : f < 10) :
    ∀ x ∈ [digitChar a, digitChar b, '.', digitChar c, digitChar d, '.',
      digitChar e, digitChar f], isSpaceChar x = false := by
  intro x hx
  simp only [List.mem_cons, List.not_mem_nil, or_false] at hx
  rcases hx with rfl | rfl | rfl | rfl | rfl | rfl | rfl | rfl
  · exact digit_not_space ha
  · exact digit_not_space hb
  · decide
  · exact digit_not_space hc
  · exact digit_not_space hd
  · decide
  · exact digit_not_space he
  · exact digit_not_space hf

/-! Validity of a header for encoding: every field fits its declared width,
text fields are printable ASCII and trim-stable, the date is a real
calendar date inside the two-digit-year window, the duration is a whole
number of seconds, and the numeric fields parse back.  These are the
conditions under which the encoded block decodes to the same model. -/

/-- Width, trim-stability and printable-ASCII conditions of a text field. -/
abbrev textOK (s : Str) (w : Nat) : Prop :=
  s.length ≤ w ∧ trimChars s = s ∧ ∀ c ∈ s, 32 ≤ c.toNat ∧ c.toNat ≤ 126

/-- Encodability and exact parse-back of a physical calibration value. -/
abbrev physOK (v : ℚ) : Prop :=
  (formatPhysicalValue v).isOk = true ∧ parseFloat (physChars v) = v

/-- Width condition of a decimal integer field. -/
abbrev intFits (i : Int) (w : Nat) : Prop := (intChars i).length ≤ w

/-- Calendar validity inside the 1969–2068 two-digit-year window. -/
abbrev dateOK (t : DateTime) : Prop :=
  1969 ≤ t.year ∧ t.year ≤ 2068 ∧ 1 ≤ t.month ∧ t.month ≤ 12 ∧
  1 ≤ t.day ∧ t.day ≤ daysInMonth t.month t.year ∧
  t.hour ≤ 23 ∧ t.minute ≤ 59 ∧ t.second ≤ 59

/-- Per-signal validity (the reserved field is unconstrained: the encoder
never writes it). -/
abbrev signalOK (s : Signal) : Prop :=
  textOK s.label 16 ∧ textOK s.transducerType 80 ∧ textOK s.physicalDimension 8 ∧
  textOK s.prefiltering 80 ∧ physOK s.physicalMin ∧ physOK s.physicalMax ∧
  intFits s.digitalMin 8 ∧ intFits s.digitalMax 8 ∧ intFits s.samplesPerRecord 8

/-- Validity of a whole header model. -/
abbrev validHeader (h : Header) : Prop :=
  h.signalCount = (h.signals.length : Int) ∧
  textOK h.version 8 ∧ textOK h.patientId 80 ∧ textOK h.recordingId 80 ∧
  dateOK h.startTime ∧
  Int.emod h.dataRecordDuration 1000000000 = 0 ∧
  intFits (Int.ediv h.dataRecordDuration 1000000000) 8 ∧
  intFits h.dataRecords 8 ∧ intFits h.signalCount 4 ∧
  ∀ s ∈ h.signals, signalOK s

theorem parseDate_roundTrip {t : DateTime} (h : dateOK t) :
    parseDate (trimChars (padChars (formatDate t) 8)) = .ok (t.year, t.month, t.day) := by
  obtain ⟨hy1, hy2, hm1, hm2, hd1, hd2, _, _, _⟩ := h
  have hd99 : t.day ≤ 99 := le_trans hd2 (le_trans (daysInMonth_le _ _) (by omega))
  have hm99 : t.month ≤ 99 := by omega
  rw [formatDate_eq hd99 hm99, padChars_eq_self (by simp),
    trim_of_noSpace (six_digits_noSpace (by omega) (by omega) (by omega) (by omega)
      (by omega) (by omega))]
  rw [parseDate]
  rw [if_pos ?hc]
  case hc =>
    simp only [List.all_cons, List.all_nil, Bool.and_true, decide_True, Bool.true_and,
      digit_isDigit (show t.day / 10 < 10 by omega), digit_isDigit (show t.day % 10 < 10 by omega),
      digit_isDigit (show t.month / 10 < 10 by omega), digit_isDigit (show t.month % 10 < 10 by omega),
      digit_isDigit (show t.year % 100 / 10 < 10 by omega),
      digit_isDigit (show t.year % 100 % 10 < 10 by omega)]
  simp only [digitVal_digitChar (show t.day / 10 < 10 by omega),
    digitVal_digitChar (show t.day % 10 < 10 by omega),
    digitVal_digitChar (show t.month / 10 < 10 by omega),
    digitVal_digitChar (show t.month % 10 < 10 by omega),
    digitVal_digitChar (show t.year % 100 / 10 < 10 by omega),
    digitVal_digitChar (show t.year % 100 % 10 < 10 by omega)]
  have hdd : 10 * (t.day / 10) + t.day % 10 = t.day := by omega
  have hmm : 10 * (t.month / 10) + t.month % 10 = t.month := by omega
  have hyy : 10 * (t.year % 100 / 10) + t.year % 100 % 10 = t.year % 100 := by omega
  rw [hdd, hmm, hyy]
  have hwin : (if 69 ≤ t.year % 100 then 1900 + t.year % 100 else 2000 + t.year % 100) = t.year := by
    by_cases hw : 69 ≤ t.year % 100
    · rw [if_pos hw]; omega
    · rw [if_neg hw]; omega
  rw [hwin]
  rw [if_pos ?hrange]
  case hrange =>
    simp only [Bool.and_eq_true, decide_eq_true_eq]
    omega

theorem parseTime_roundTrip {t : DateTime} (h : dateOK t) :
    parseTime (trimChars (padChars (formatTime t) 8)) = .ok (t.hour, t.minute, t.second) := by
  obtain ⟨_, _, _, _, _, _, hh, hm, hs⟩ := h
  rw [formatTime_eq (by omega) (by omega) (by omega), padChars_eq_self (by simp),
    trim_of_noSpace (six_digits_noSpace (by omega) (by omega) (by omega) (by omega)
      (by omega) (by omega))]
  rw [parseTime]
  rw [if_pos ?hc]
  case hc =>
    simp only [List.all_cons, List.all_nil, Bool.and_true, decide_True, Bool.true_and,
      digit_isDigit (show t.hour / 10 < 10 by omega), digit_isDigit (show t.hour % 10 < 10 by omega),
      digit_isDigit (show t.minute / 10 < 10 by omega), digit_isDigit (show t.minute % 10 < 10 by omega),
      digit_isDigit (show t.second / 10 < 10 by omega), digit_isDigit (show t.second % 10 < 10 by omega)]
  simp only [digitVal_digitChar (show t.hour / 10 < 10 by omega),
    digitVal_digitChar (show t.hour % 10 < 10 by omega),
    digitVal_digitChar (show t.minute / 10 < 10 by omega),
    digitVal_digitChar (show t.minute % 10 < 10 by omega),
    digitVal_digitChar (show t.second / 10 < 10 by omega),
    digitVal_digitChar (show t.second % 10 < 10 by omega)]
  have h1 : 10 * (t.hour / 10) + t.hour % 10 = t.hour := by omega
  have h2 : 10 * (t.minute / 10) + t.minute % 10 = t.minute := by omega
  have h3 : 10 * (t.second / 10) + t.second % 10 = t.second := by omega
  rw [h1, h2, h3]
  rw [if_pos ?hrange]
  case hrange =>
    simp only [Bool.and_eq_true, decide_eq_true_eq]
    omega

theorem ceilSecs_exact (k : Int) : ceilSecs (k * 1000000000) = k := by
  have h : Int.ediv (-k * 1000000000) 1000000000 = -k := Int.mul_ediv_cancel (-k) (by norm_num)
  rw [ceilSecs, show -(k * 1000000000) = -k * 1000000000 by ring, h, neg_neg]

theorem parseDuration_roundTrip {d : Int} (hmod : Int.emod d 1000000000 = 0)
    (hfit : (intChars (Int.ediv d 1000000000)).length ≤ 8) :
    parseDurationNs (trimChars (padChars (intChars (ceilSecs d)) 8)) = .ok d := by
  have hdvd : (1000000000 : Int) ∣ d := Int.dvd_of_emod_eq_zero hmod
  have hdk : Int.ediv d 1000000000 * 1000000000 = d := Int.ediv_mul_cancel hdvd
  rw [show d = Int.ediv d 1000000000 * 1000000000 from hdk.symm, ceilSecs_exact]
  rw [parseDurationNs, atoi_trim_pad_intChars 8 hfit]

/-! Successful encoding: under validity, `writeHeader` produces the
explicit concatenation `headerChars` of its padded fields. -/

theorem writeChecked_ok {s : Str} {w : Nat} (h : s.length ≤ w) :
    writeChecked s w = .ok (padChars s w) := by
  rw [writeChecked, if_neg (by omega)]

theorem formatPhysical_ok {v : ℚ} (h : (formatPhysicalValue v).isOk = true) :
    formatPhysicalValue v = .ok (physChars v) := by
  rw [physChars]
  cases hf : formatPhysicalValue v with
  | ok s => rfl
  | error e => rw [hf] at h; simp [Except.isOk, Except.toBool] at h

theorem physChars_length {v : ℚ} (h : (formatPhysicalValue v).isOk = true) :
    (physChars v).length = 8 := by
  by_cases h2 : 8 < (format2 v).length
  · by_cases h0 : 8 < (format0 v).length
    · exfalso
      rw [formatPhysicalValue] at h
      simp only [if_pos h2, if_pos h0] at h
      simp [Except.isOk, Except.toBool] at h
    · rw [physChars, formatPhysicalValue]
      simp only [if_pos h2, if_neg h0]
      exact padChars_length (by omega)
  · rw [physChars, formatPhysicalValue]
    simp only [if_neg h2]
    exact padChars_length (by omega)

theorem formatDate_length {t : DateTime} (h : dateOK t) : (formatDate t).length = 8 := by
  obtain ⟨_, _, _, hm2, _, hd2, _, _, _⟩ := h
  rw [formatDate_eq (le_trans hd2 (le_trans (daysInMonth_le _ _) (by omega))) (by omega)]
  rfl

theorem formatTime_length {t : DateTime} (h : dateOK t) : (formatTime t).length = 8 := by
  obtain ⟨_, _, _, _, _, _, hh, hm, hs⟩ := h
  rw [formatTime_eq (by omega) (by omega) (by omega)]
  rfl

theorem intChars_length_le_of_lt {i : Int} {k : Nat} (h0 : 0 ≤ i) (h : i < 10 ^ k)
    (hk : 1 ≤ k) : (intChars i).length ≤ k := by
  rw [intChars, if_neg (by omega), List.nil_append]
  apply natChars_length_le _ hk
  have h1 : (i.natAbs : Int) = i := Int.natAbs_of_nonneg h0
  have h2 : (i.natAbs : Int) < (10 : Int) ^ k := by rw [h1]; exact h
  exact_mod_cast h2

/-- Derived width of the recomputed `headerBytes` field. -/
theorem headerBytesFits {sc : Int} (h0 : 0 ≤ sc) (h : intFits sc 4) :
    (intChars (256 + sc * 256)).length ≤ 8 := by
  have h1 : sc.natAbs < 10 ^ 4 := intChars_value_lt (by omega) h
  apply intChars_length_le_of_lt (by positivity) _ (by omega)
  have : sc < 10000 := by omega
  calc 256 + sc * 256 < 256 + 10000 * 256 := by omega
  _ ≤ 10 ^ 8 := by norm_num

/-- Explicit successful output of `writeHeader`. -/
def headerChars (hdr : Header) : Str :=
  padChars hdr.version 8 ++ (padChars hdr.patientId 80 ++ (padChars hdr.recordingId 80 ++ (padChars (formatDate hdr.startTime) 8 ++ (padChars (formatTime hdr.startTime) 8 ++ (padChars (intChars (256 + hdr.signalCount * 256)) 8 ++ (padChars [] 44 ++ (padChars (intChars hdr.dataRecords) 8 ++ (padChars (intChars (ceilSecs hdr.dataRecordDuration)) 8 ++ (padChars (intChars hdr.signalCount) 4 ++ ((hdr.signals.map (fun s => padChars s.label 16)).flatten ++ ((hdr.signals.map (fun s => padChars s.transducerType 80)).flatten ++ ((hdr.signals.map (fun s => padChars s.physicalDimension 8)).flatten ++ ((hdr.signals.map (fun s => physChars s.physicalMin)).flatten ++ ((hdr.signals.map (fun s => physChars s.physicalMax)).flatten ++ ((hdr.signals.map (fun s => padChars (intChars s.digitalMin) 8)).flatten ++ ((hdr.signals.map (fun s => padChars (intChars s.digitalMax) 8)).flatten ++ ((hdr.signals.map (fun s => padChars s.prefiltering 80)).flatten ++ ((hdr.signals.map (fun s => padChars (intChars s.samplesPerRecord) 8)).flatten ++ ((hdr.signals.map (fun _ => padChars [] 32)).flatten)))))))))))))))))))

theorem except_bind_ok_eq {α β : Type} (a : α) (f : α → Except Err β) :
    Except.bind (Except.ok a) f = f a := rfl

theorem ok_bind {α β : Type} (a : α) (f : α → Except Err β) :
    (Except.ok a : Except Err α) >>= f = f a := rfl

set_option maxHeartbeats 2000000 in
theorem writeHeader_ok {hdr : Header} (h : validHeader hdr) :
    writeHeader hdr = .ok (headerChars hdr) := by
  obtain ⟨hsc, hv, hp, hr, hdt, hdm, hdf, hdr8, hsc4, hsigs⟩ := h
  have hsc0 : 0 ≤ hdr.signalCount := by rw [hsc]; positivity
  have hkdef : hdr.dataRecordDuration = Int.ediv hdr.dataRecordDuration 1000000000 * 1000000000 :=
    (Int.ediv_mul_cancel (Int.dvd_of_emod_eq_zero hdm)).symm
  have hceil : ceilSecs hdr.dataRecordDuration = Int.ediv hdr.dataRecordDuration 1000000000 := by
    conv_lhs => rw [hkdef]
    exact ceilSecs_exact _
  have hm1 : hdr.signals.mapM (fun s => writeChecked s.label 16)
      = .ok (hdr.signals.map (fun s => padChars s.label 16)) :=
    mapM_ok_of _ _ _ (fun s hs => writeChecked_ok (hsigs s hs).1.1)
  have hm2 : hdr.signals.mapM (fun s => writeChecked s.transducerType 80)
      = .ok (hdr.signals.map (fun s => padChars s.transducerType 80)) :=
    mapM_ok_of _ _ _ (fun s hs => writeChecked_ok (hsigs s hs).2.1.1)
  have hm3 : hdr.signals.mapM (fun s => writeChecked s.physicalDimension 8)
      = .ok (hdr.signals.map (fun s => padChars s.physicalDimension 8)) :=
    mapM_ok_of _ _ _ (fun s hs => writeChecked_ok (hsigs s hs).2.2.1.1)
  have hm4 : hdr.signals.mapM (fun s => formatPhysicalValue s.physicalMin)
      = .ok (hdr.signals.map (fun s => physChars s.physicalMin)) :=
    mapM_ok_of _ _ _ (fun s hs => formatPhysical_ok (hsigs s hs).2.2.2.2.1.1)
  have hm5 : hdr.signals.mapM (fun s => formatPhysicalValue s.physicalMax)
      = .ok (hdr.signals.map (fun s => physChars s.physicalMax)) :=
    mapM_ok_of _ _ _ (fun s hs => formatPhysical_ok (hsigs s hs).2.2.2.2.2.1.1)
  have hm6 : hdr.signals.mapM (fun s => writeChecked (intChars s.digitalMin) 8)
      = .ok (hdr.signals.map (fun s => padChars (intChars s.digitalMin) 8)) :=
    mapM_ok_of _ _ _ (fun s hs => writeChecked_ok (hsigs s hs).2.2.2.2.2.2.1)
  have hm7 : hdr.signals.mapM (fun s => writeChecked (intChars s.digitalMax) 8)
      = .ok (hdr.signals.map (fun s => padChars (intChars s.digitalMax) 8)) :=
    mapM_ok_of _ _ _ (fun s hs => writeChecked_ok (hsigs s hs).2.2.2.2.2.2.2.1)
  have hm8 : hdr.signals.mapM (fun s => writeChecked s.prefiltering 80)
      = .ok (hdr.signals.map (fun s => padChars s.prefiltering 80)) :=
    mapM_ok_of _ _ _ (fun s hs => writeChecked_ok (hsigs s hs).2.2.2.1.1)
  have hm9 : hdr.signals.mapM (fun s => writeChecked (intChars s.samplesPerRecord) 8)
      = .ok (hdr.signals.map (fun s => padChars (intChars s.samplesPerRecord) 8)) :=
    mapM_ok_of _ _ _ (fun s hs => writeChecked_ok (hsigs s hs).2.2.2.2.2.2.2.2)
  have hm10 : hdr.signals.mapM (fun _ => writeChecked [] 32)
      = .ok (hdr.signals.map (fun _ => padChars [] 32)) :=
    mapM_ok_of _ _ _ (fun s _ => writeChecked_ok (by simp : ([] : Str).length ≤ 32))
  rw [writeHeader]
  rw [writeChecked_ok hv.1]
  rw [writeChecked_ok hp.1]
  rw [writeChecked_ok hr.1]
  rw [writeChecked_ok (le_of_eq (formatDate_length hdt))]
  rw [writeChecked_ok (le_of_eq (formatTime_length hdt))]
  rw [writeChecked_ok (headerBytesFits hsc0 hsc4)]
  rw [writeChecked_ok (by simp : ([] : Str).length ≤ 44)]
  rw [writeChecked_ok hdr8]
  rw [writeChecked_ok (show (intChars (ceilSecs hdr.dataRecordDuration)).length ≤ 8 by rw [hceil]; exact hdf)]
  rw [writeChecked_ok hsc4]
  rw [hm1, hm2, hm3, hm4, hm5, hm6, hm7, hm8, hm9, hm10]
  rfl

/-- Length of the encoded header block. -/
theorem headerChars_length {hdr : Header} (h : validHeader hdr) :
    (headerChars hdr).length = 256 + 256 * hdr.signals.length := by
  obtain ⟨hsc, hv, hp, hr, hdt, hdm, hdf, hdr8, hsc4, hsigs⟩ := h
  have hsc0 : 0 ≤ hdr.signalCount := by rw [hsc]; positivity
  have hkdef : hdr.dataRecordDuration = Int.ediv hdr.dataRecordDuration 1000000000 * 1000000000 :=
    (Int.ediv_mul_cancel (Int.dvd_of_emod_eq_zero hdm)).symm
  have hceil : ceilSecs hdr.dataRecordDuration = Int.ediv hdr.dataRecordDuration 1000000000 := by
    conv_lhs => rw [hkdef]
    exact ceilSecs_exact _
  have w1 : ((hdr.signals.map (fun s => padChars s.label 16)).flatten).length = 16 * hdr.signals.length := by
    have hw : ∀ x ∈ hdr.signals.map (fun s => padChars s.label 16), x.length = 16 := by
      intro x hx
      obtain ⟨s, hs, rfl⟩ := List.mem_map.mp hx
      exact padChars_length (hsigs s hs).1.1
    rw [flatten_length_const hw, List.length_map]
  have w2 : ((hdr.signals.map (fun s => padChars s.transducerType 80)).flatten).length = 80 * hdr.signals.length := by
    have hw : ∀ x ∈ hdr.signals.map (fun s => padChars s.transducerType 80), x.length = 80 := by
      intro x hx
      obtain ⟨s, hs, rfl⟩ := List.mem_map.mp hx
      exact padChars_length (hsigs s hs).2.1.1
    rw [flatten_length_const hw, List.length_map]
  have w3 : ((hdr.signals.map (fun s => padChars s.physicalDimension 8)).flatten).length = 8 * hdr.signals.length := by
    have hw : ∀ x ∈ hdr.signals.map (fun s => padChars s.physicalDimension 8), x.length = 8 := by
      intro x hx
      obtain ⟨s, hs, rfl⟩ := List.mem_map.mp hx
      exact padChars_length (hsigs s hs).2.2.1.1
    rw [flatten_length_const hw, List.length_map]
  have w4 : ((hdr.signals.map (fun s => physChars s.physicalMin)).flatten).length = 8 * hdr.signals.length := by
    have hw : ∀ x ∈ hdr.signals.map (fun s => physChars s.physicalMin), x.length = 8 := by
      intro x hx
      obtain ⟨s, hs, rfl⟩ := List.mem_map.mp hx
      exact physChars_length (hsigs s hs).2.2.2.2.1.1
    rw [flatten_length_const hw, List.length_map]
  have w5 : ((hdr.signals.map (fun s => physChars s.physicalMax)).flatten).length = 8 * hdr.signals.length := by
    have hw : ∀ x ∈ hdr.signals.map (fun s => physChars s.physicalMax), x.length = 8 := by
      intro x hx
      obtain ⟨s, hs, rfl⟩ := List.mem_map.mp hx
      exact physChars_length (hsigs s hs).2.2.2.2.2.1.1
    rw [flatten_length_const hw, List.length_map]
  have w6 : ((hdr.signals.map (fun s => padChars (intChars s.digitalMin) 8)).flatten).length = 8 * hdr.signals.length := by
    have hw : ∀ x ∈ hdr.signals.map (fun s => padChars (intChars s.digitalMin) 8), x.length = 8 := by
      intro x hx
      obtain ⟨s, hs, rfl⟩ := List.mem_map.mp hx
      exact padChars_length (hsigs s hs).2.2.2.2.2.2.1
    rw [flatten_length_const hw, List.length_map]
  have w7 : ((hdr.signals.map (fun s => padChars (intChars s.digitalMax) 8)).flatten).length = 8 * hdr.signals.length := by
    have hw : ∀ x ∈ hdr.signals.map (fun s => padChars (intChars s.digitalMax) 8), x.length = 8 := by
      intro x hx
      obtain ⟨s, hs, rfl⟩ := List.mem_map.mp hx
      exact padChars_length (hsigs s hs).2.2.2.2.2.2.2.1
    rw [flatten_length_const hw, List.length_map]
  have w8 : ((hdr.signals.map (fun s => padChars s.prefiltering 80)).flatten).length = 80 * hdr.signals.length := by
    have hw : ∀ x ∈ hdr.signals.map (fun s => padChars s.prefiltering 80), x.length = 80 := by
      intro x hx
      obtain ⟨s, hs, rfl⟩ := List.mem_map.mp hx
      exact padChars_length (hsigs s hs).2.2.2.1.1
    rw [flatten_length_const hw, List.length_map]
  have w9 : ((hdr.signals.map (fun s => padChars (intChars s.samplesPerRecord) 8)).flatten).length = 8 * hdr.signals.length := by
    have hw : ∀ x ∈ hdr.signals.map (fun s => padChars (intChars s.samplesPerRecord) 8), x.length = 8 := by
      intro x hx
      obtain ⟨s, hs, rfl⟩ := List.mem_map.mp hx
      exact padChars_length (hsigs s hs).2.2.2.2.2.2.2.2
    rw [flatten_length_const hw, List.length_map]
  have w10 : ((hdr.signals.map (fun _ => padChars ([] : Str) 32)).flatten).length = 32 * hdr.signals.length := by
    have hw : ∀ x ∈ hdr.signals.map (fun _ => padChars ([] : Str) 32), x.length = 32 := by
      intro x hx
      obtain ⟨s, hs, rfl⟩ := List.mem_map.mp hx
      exact padChars_length (by simp)
    rw [flatten_length_const hw, List.length_map]
  rw [headerChars]
  simp only [List.length_append]
  rw [padChars_length hv.1, padChars_length hp.1, padChars_length hr.1,
    padChars_length (le_of_eq (formatDate_length hdt)),
    padChars_length (le_of_eq (formatTime_length hdt)),
    padChars_length (headerBytesFits hsc0 hsc4),
    padChars_length (by simp : ([] : Str).length ≤ 44),
    padChars_length hdr8,
    padChars_length (show (intChars (ceilSecs hdr.dataRecordDuration)).length ≤ 8 by
      rw [hceil]; exact hdf),
    padChars_length hsc4,
    w1, w2, w3, w4, w5, w6, w7, w8, w9, w10]
  omega

set_option maxHeartbeats 2000000 in
/-- Master decode lemma: `Open` applied to a block assembled from
fixed-width pieces (followed by arbitrary trailing bytes) parses each
piece independently at its offset. -/
theorem Open_assembled
    (ver pid rid dat tim hbs res drs dur scs rest : Str)
    (labs trans dims pmins pmaxs dmins dmaxs prefs sprs ress : List Str)
    (n yy mo dy hh mi ss : Nat) (hbv drv duv : Int)
    (hver : ver.length = 8) (hpid : pid.length = 80) (hrid : rid.length = 80)
    (hdat : dat.length = 8) (htim : tim.length = 8) (hhbs : hbs.length = 8)
    (hres : res.length = 44) (hdrs : drs.length = 8) (hdur : dur.length = 8)
    (hscs : scs.length = 4)
    (hlabn : labs.length = n) (hlabw : ∀ x ∈ labs, x.length = 16)
    (htran : trans.length = n) (htraw : ∀ x ∈ trans, x.length = 80)
    (hdimn : dims.length = n) (hdimw : ∀ x ∈ dims, x.length = 8)
    (hpminn : pmins.length = n) (hpminw : ∀ x ∈ pmins, x.length = 8)
    (hpmaxn : pmaxs.length = n) (hpmaxw : ∀ x ∈ pmaxs, x.length = 8)
    (hdminn : dmins.length = n) (hdminw : ∀ x ∈ dmins, x.length = 8)
    (hdmaxn : dmaxs.length = n) (hdmaxw : ∀ x ∈ dmaxs, x.length = 8)
    (hprefn : prefs.length = n) (hprefw : ∀ x ∈ prefs, x.length = 80)
    (hsprn : sprs.length = n) (hsprw : ∀ x ∈ sprs, x.length = 8)
    (hresn : ress.length = n) (hresw : ∀ x ∈ ress, x.length = 32)
    (pdt : parseDate (trimChars dat) = .ok (yy, mo, dy))
    (ptm : parseTime (trimChars tim) = .ok (hh, mi, ss))
    (phb : atoi (trimChars hbs) = some hbv)
    (pdr : atoi (trimChars drs) = some drv)
    (pdu : parseDurationNs (trimChars dur) = .ok duv)
    (psc : atoi (trimChars scs) = some ((n : Int))) :
    Open (ver ++ (pid ++ (rid ++ (dat ++ (tim ++ (hbs ++ (res ++ (drs ++ (dur ++ (scs ++ (labs.flatten ++ (trans.flatten ++ (dims.flatten ++ (pmins.flatten ++ (pmaxs.flatten ++ (dmins.flatten ++ (dmaxs.flatten ++ (prefs.flatten ++ (sprs.flatten ++ (ress.flatten ++ rest))))))))))))))))))))
    = .ok { version := trimChars ver, patientId := trimChars pid
            recordingId := trimChars rid
            startTime := { year := yy, month := mo, day := dy, hour := hh, minute := mi, second := ss }
            headerBytes := hbv, dataRecordDuration := duv, dataRecords := drv
            signalCount := (n : Int)
            signals := (List.range n).map (fun i =>
              { label := trimChars (labs.getD i [])
                transducerType := trimChars (trans.getD i [])
                physicalDimension := trimChars (dims.getD i [])
                physicalMin := parseFloat (pmins.getD i [])
                physicalMax := parseFloat (pmaxs.getD i [])
                digitalMin := parseInt (dmins.getD i [])
                digitalMax := parseInt (dmaxs.getD i [])
                prefiltering := trimChars (prefs.getD i [])
                samplesPerRecord := parseInt (sprs.getD i [])
                reserved := trimChars (ress.getD i []) }) } := by
  set B : Str := ver ++ (pid ++ (rid ++ (dat ++ (tim ++ (hbs ++ (res ++ (drs ++ (dur ++ (scs ++ (labs.flatten ++ (trans.flatten ++ (dims.flatten ++ (pmins.flatten ++ (pmaxs.flatten ++ (dmins.flatten ++ (dmaxs.flatten ++ (prefs.flatten ++ (sprs.flatten ++ (ress.flatten ++ rest))))))))))))))))))) with hB
  have Llab : labs.flatten.length = 16 * n := by rw [flatten_length_const hlabw, hlabn]
  have Ltra : trans.flatten.length = 80 * n := by rw [flatten_length_const htraw, htran]
  have Ldim : dims.flatten.length = 8 * n := by rw [flatten_length_const hdimw, hdimn]
  have Lpmin : pmins.flatten.length = 8 * n := by rw [flatten_length_const hpminw, hpminn]
  have Lpmax : pmaxs.flatten.length = 8 * n := by rw [flatten_length_const hpmaxw, hpmaxn]
  have Ldmin : dmins.flatten.length = 8 * n := by rw [flatten_length_const hdminw, hdminn]
  have Ldmax : dmaxs.flatten.length = 8 * n := by rw [flatten_length_const hdmaxw, hdmaxn]
  have Lpref : prefs.flatten.length = 80 * n := by rw [flatten_length_const hprefw, hprefn]
  have Lspr : sprs.flatten.length = 8 * n := by rw [flatten_length_const hsprw, hsprn]
  have Lres : ress.flatten.length = 32 * n := by rw [flatten_length_const hresw, hresn]
  have hBlen : B.length = 256 + 256 * n + rest.length := by
    rw [hB]
    simp only [List.length_append]
    rw [hver, hpid, hrid, hdat, htim, hhbs, hres, hdrs, hdur, hscs,
      Llab, Ltra, Ldim, Lpmin, Lpmax, Ldmin, Ldmax, Lpref, Lspr, Lres]
    omega
  have e0 : fieldAt B 0 8 = ver := by
    rw [hB]
    exact fieldAt_here _ _ _ hver
  have e8 : fieldAt B 8 80 = pid := by
    rw [hB]
    rw [fieldAt_peel _ 80 hver (by omega : (8 : Nat) = 8 + 0)]
    exact fieldAt_here _ _ _ hpid
  have e88 : fieldAt B 88 80 = rid := by
    rw [hB]
    rw [fieldAt_peel _ 80 hver (by omega : (88 : Nat) = 8 + 80),
      fieldAt_peel _ 80 hpid (by omega : (80 : Nat) = 80 + 0)]
    exact fieldAt_here _ _ _ hrid
  have e168 : fieldAt B 168 8 = dat := by
    rw [hB]
    rw [fieldAt_peel _ 8 hver (by omega : (168 : Nat) = 8 + 160),
      fieldAt_peel _ 8 hpid (by omega : (160 : Nat) = 80 + 80),
      fieldAt_peel _ 8 hrid (by omega : (80 : Nat) = 80 + 0)]
    exact fieldAt_here _ _ _ hdat
  have e176 : fieldAt B 176 8 = tim := by
    rw [hB]
    rw [fieldAt_peel _ 8 hver (by omega : (176 : Nat) = 8 + 168),
      fieldAt_peel _ 8 hpid (by omega : (168 : Nat) = 80 + 88),
      fieldAt_peel _ 8 hrid (by omega : (88 : Nat) = 80 + 8),
      fieldAt_peel _ 8 hdat (by omega : (8 : Nat) = 8 + 0)]
    exact fieldAt_here _ _ _ htim
  have e184 : fieldAt B 184 8 = hbs := by
    rw [hB]
    rw [fieldAt_peel _ 8 hver (by omega : (184 : Nat) = 8 + 176),
      fieldAt_peel _ 8 hpid (by omega : (176 : Nat) = 80 + 96),
      fieldAt_peel _ 8 hrid (by omega : (96 : Nat) = 80 + 16),
      fieldAt_peel _ 8 hdat (by omega : (16 : Nat) = 8 + 8),
      fieldAt_peel _ 8 htim (by omega : (8 : Nat) = 8 + 0)]
    exact fieldAt_here _ _ _ hhbs
  have e192 : fieldAt B 192 44 = res := by
    rw [hB]
    rw [fieldAt_peel _ 44 hver (by omega : (192 : Nat) = 8 + 184),
      fieldAt_peel _ 44 hpid (by omega : (184 : Nat) = 80 + 104),
      fieldAt_peel _ 44 hrid (by omega : (104 : Nat) = 80 + 24),
      fieldAt_peel _ 44 hdat (by omega : (24 : Nat) = 8 + 16),
      fieldAt_peel _ 44 htim (by omega : (16 : Nat) = 8 + 8),
      fieldAt_peel _ 44 hhbs (by omega : (8 : Nat) = 8 + 0)]
    exact fieldAt_here _ _ _ hres
  have e236 : fieldAt B 236 8 = drs := by
    rw [hB]
    rw [fieldAt_peel _ 8 hver (by omega : (236 : Nat) = 8 + 228),
      fieldAt_peel _ 8 hpid (by omega : (228 : Nat) = 80 + 148),
      fieldAt_peel _ 8 hrid (by omega : (148 : Nat) = 80 + 68),
      fieldAt_peel _ 8 hdat (by omega : (68 : Nat) = 8 + 60),
      fieldAt_peel _ 8 htim (by omega : (60 : Nat) = 8 + 52),
      fieldAt_peel _ 8 hhbs (by omega : (52 : Nat) = 8 + 44),
      fieldAt_peel _ 8 hres (by omega : (44 : Nat) = 44 + 0)]
    exact fieldAt_here _ _ _ hdrs
  have e244 : fieldAt B 244 8 = dur := by
    rw [hB]
    rw [fieldAt_peel _ 8 hver (by omega : (244 : Nat) = 8 + 236),
      fieldAt_peel _ 8 hpid (by omega : (236 : Nat) = 80 + 156),
      fieldAt_peel _ 8 hrid (by omega : (156 : Nat) = 80 + 76),
      fieldAt_peel _ 8 hdat (by omega : (76 : Nat) = 8 + 68),
      fieldAt_peel _ 8 htim (by omega : (68 : Nat) = 8 + 60),
      fieldAt_peel _ 8 hhbs (by omega : (60 : Nat) = 8 + 52),
      fieldAt_peel _ 8 hres (by omega : (52 : Nat) = 44 + 8),
      fieldAt_peel _ 8 hdrs (by omega : (8 : Nat) = 8 + 0)]
    exact fieldAt_here _ _ _ hdur
  have e252 : fieldAt B 252 4 = scs := by
    rw [hB]
    rw [fieldAt_peel _ 4 hver (by omega : (252 : Nat) = 8 + 244),
      fieldAt_peel _ 4 hpid (by omega : (244 : Nat) = 80 + 164),
      fieldAt_peel _ 4 hrid (by omega : (164 : Nat) = 80 + 84),
      fieldAt_peel _ 4 hdat (by omega : (84 : Nat) = 8 + 76),
      fieldAt_peel _ 4 htim (by omega : (76 : Nat) = 8 + 68),
      fieldAt_peel _ 4 hhbs (by omega : (68 : Nat) = 8 + 60),
      fieldAt_peel _ 4 hres (by omega : (60 : Nat) = 44 + 16),
      fieldAt_peel _ 4 hdrs (by omega : (16 : Nat) = 8 + 8),
      fieldAt_peel _ 4 hdur (by omega : (8 : Nat) = 8 + 0)]
    exact fieldAt_here _ _ _ hscs
  have eS0 : ∀ i, i < n → fieldAt B (256 + 16 * i) 16 = labs.getD i [] := by
    intro i hi
    rw [hB]
    rw [fieldAt_peel _ 16 hver (by omega : 256 + 16 * i = 8 + (248 + 16 * i)),
      fieldAt_peel _ 16 hpid (by omega : 248 + 16 * i = 80 + (168 + 16 * i)),
      fieldAt_peel _ 16 hrid (by omega : 168 + 16 * i = 80 + (88 + 16 * i)),
      fieldAt_peel _ 16 hdat (by omega : 88 + 16 * i = 8 + (80 + 16 * i)),
      fieldAt_peel _ 16 htim (by omega : 80 + 16 * i = 8 + (72 + 16 * i)),
      fieldAt_peel _ 16 hhbs (by omega : 72 + 16 * i = 8 + (64 + 16 * i)),
      fieldAt_peel _ 16 hres (by omega : 64 + 16 * i = 44 + (20 + 16 * i)),
      fieldAt_peel _ 16 hdrs (by omega : 20 + 16 * i = 8 + (12 + 16 * i)),
      fieldAt_peel _ 16 hdur (by omega : 12 + 16 * i = 8 + (4 + 16 * i)),
      fieldAt_peel _ 16 hscs (by omega : 4 + 16 * i = 4 + (16 * i))]
    exact chunk_extract _ hlabw (by omega)
  have eS1 : ∀ i, i < n → fieldAt B (256 + 16 * n + 80 * i) 80 = trans.getD i [] := by
    intro i hi
    rw [hB]
    rw [fieldAt_peel _ 80 hver (by omega : 256 + 16 * n + 80 * i = 8 + (248 + 16 * n + 80 * i)),
      fieldAt_peel _ 80 hpid (by omega : 248 + 16 * n + 80 * i = 80 + (168 + 16 * n + 80 * i)),
      fieldAt_peel _ 80 hrid (by omega : 168 + 16 * n + 80 * i = 80 + (88 + 16 * n + 80 * i)),
      fieldAt_peel _ 80 hdat (by omega : 88 + 16 * n + 80 * i = 8 + (80 + 16 * n + 80 * i)),
      fieldAt_peel _ 80 htim (by omega : 80 + 16 * n + 80 * i = 8 + (72 + 16 * n + 80 * i)),
      fieldAt_peel _ 80 hhbs (by omega : 72 + 16 * n + 80 * i = 8 + (64 + 16 * n + 80 * i)),
      fieldAt_peel _ 80 hres (by omega : 64 + 16 * n + 80 * i = 44 + (20 + 16 * n + 80 * i)),
      fieldAt_peel _ 80 hdrs (by omega : 20 + 16 * n + 80 * i = 8 + (12 + 16 * n + 80 * i)),
      fieldAt_peel _ 80 hdur (by omega : 12 + 16 * n + 80 * i = 8 + (4 + 16 * n + 80 * i)),
      fieldAt_peel _ 80 hscs (by omega : 4 + 16 * n + 80 * i = 4 + (16 * n + 80 * i)),
      fieldAt_peel _ 80 Llab (by omega : 16 * n + 80 * i = 16 * n + (80 * i))]
    exact chunk_extract _ htraw (by omega)
  have eS2 : ∀ i, i < n → fieldAt B (256 + 96 * n + 8 * i) 8 = dims.getD i [] := by
    intro i hi
    rw [hB]
    rw [fieldAt_peel _ 8 hver (by omega : 256 + 96 * n + 8 * i = 8 + (248 + 96 * n + 8 * i)),
      fieldAt_peel _ 8 hpid (by omega : 248 + 96 * n + 8 * i = 80 + (168 + 96 * n + 8 * i)),
      fieldAt_peel _ 8 hrid (by omega : 168 + 96 * n + 8 * i = 80 + (88 + 96 * n + 8 * i)),
      fieldAt_peel _ 8 hdat (by omega : 88 + 96 * n + 8 * i = 8 + (80 + 96 * n + 8 * i)),
      fieldAt_peel _ 8 htim (by omega : 80 + 96 * n + 8 * i = 8 + (72 + 96 * n + 8 * i)),
      fieldAt_peel _ 8 hhbs (by omega : 72 + 96 * n + 8 * i = 8 + (64 + 96 * n + 8 * i)),
      fieldAt_peel _ 8 hres (by omega : 64 + 96 * n + 8 * i = 44 + (20 + 96 * n + 8 * i)),
      fieldAt_peel _ 8 hdrs (by omega : 20 + 96 * n + 8 * i = 8 + (12 + 96 * n + 8 * i)),
      fieldAt_peel _ 8 hdur (by omega : 12 + 96 * n + 8 * i = 8 + (4 + 96 * n + 8 * i)),
      fieldAt_peel _ 8 hscs (by omega : 4 + 96 * n + 8 * i = 4 + (96 * n + 8 * i)),
      fieldAt_peel _ 8 Llab (by omega : 96 * n + 8 * i = 16 * n + (80 * n + 8 * i)),
      fieldAt_peel _ 8 Ltra (by omega : 80 * n + 8 * i = 80 * n + (8 * i))]
    exact chunk_extract _ hdimw (by omega)
  have eS3 : ∀ i, i < n → fieldAt B (256 + 104 * n + 8 * i) 8 = pmins.getD i [] := by
    intro i hi
    rw [hB]
    rw [fieldAt_peel _ 8 hver (by omega : 256 + 104 * n + 8 * i = 8 + (248 + 104 * n + 8 * i)),
      fieldAt_peel _ 8 hpid (by omega : 248 + 104 * n + 8 * i = 80 + (168 + 104 * n + 8 * i)),
      fieldAt_peel _ 8 hrid (by omega : 168 + 104 * n + 8 * i = 80 + (88 + 104 * n + 8 * i)),
      fieldAt_peel _ 8 hdat (by omega : 88 + 104 * n + 8 * i = 8 + (80 + 104 * n + 8 * i)),
      fieldAt_peel _ 8 htim (by omega : 80 + 104 * n + 8 * i = 8 + (72 + 104 * n + 8 * i)),
      fieldAt_peel _ 8 hhbs (by omega : 72 + 104 * n + 8 * i = 8 + (64 + 104 * n + 8 * i)),
      fieldAt_peel _ 8 hres (by omega : 64 + 104 * n + 8 * i = 44 + (20 + 104 * n + 8 * i)),
      fieldAt_peel _ 8 hdrs (by omega : 20 + 104 * n + 8 * i = 8 + (12 + 104 * n + 8 * i)),
      fieldAt_peel _ 8 hdur (by omega : 12 + 104 * n + 8 * i = 8 + (4 + 104 * n + 8 * i)),
      fieldAt_peel _ 8 hscs (by omega : 4 + 104 * n + 8 * i = 4 + (104 * n + 8 * i)),
      fieldAt_peel _ 8 Llab (by omega : 104 * n + 8 * i = 16 * n + (88 * n + 8 * i)),
      fieldAt_peel _ 8 Ltra (by omega : 88 * n + 8 * i = 80 * n + (8 * n + 8 * i)),
      fieldAt_peel _ 8 Ldim (by omega : 8 * n + 8 * i = 8 * n + (8 * i))]
    exact chunk_extract _ hpminw (by omega)
  have eS4 : ∀ i, i < n → fieldAt B (256 + 112 * n + 8 * i) 8 = pmaxs.getD i [] := by
    intro i hi
    rw [hB]
    rw [fieldAt_peel _ 8 hver (by omega : 256 + 112 * n + 8 * i = 8 + (248 + 112 * n + 8 * i)),
      fieldAt_peel _ 8 hpid (by omega : 248 + 112 * n + 8 * i = 80 + (168 + 112 * n + 8 * i)),
      fieldAt_peel _ 8 hrid (by omega : 168 + 112 * n + 8 * i = 80 + (88 + 112 * n + 8 * i)),
      fieldAt_peel _ 8 hdat (by omega : 88 + 112 * n + 8 * i = 8 + (80 + 112 * n + 8 * i)),
      fieldAt_peel _ 8 htim (by omega : 80 + 112 * n + 8 * i = 8 + (72 + 112 * n + 8 * i)),
      fieldAt_peel _ 8 hhbs (by omega : 72 + 112 * n + 8 * i = 8 + (64 + 112 * n + 8 * i)),
      fieldAt_peel _ 8 hres (by omega : 64 + 112 * n + 8 * i = 44 + (20 + 112 * n + 8 * i)),
      fieldAt_peel _ 8 hdrs (by omega : 20 + 112 * n + 8 * i = 8 + (12 + 112 * n + 8 * i)),
      fieldAt_peel _ 8 hdur (by omega : 12 + 112 * n + 8 * i = 8 + (4 + 112 * n + 8 * i)),
      fieldAt_peel _ 8 hscs (by omega : 4 + 112 * n + 8 * i = 4 + (112 * n + 8 * i)),
      fieldAt_peel _ 8 Llab (by omega : 112 * n + 8 * i = 16 * n + (96 * n + 8 * i)),
      fieldAt_peel _ 8 Ltra (by omega : 96 * n + 8 * i = 80 * n + (16 * n + 8 * i)),
      fieldAt_peel _ 8 Ldim (by omega : 16 * n + 8 * i = 8 * n + (8 * n + 8 * i)),
      fieldAt_peel _ 8 Lpmin (by omega : 8 * n + 8 * i = 8 * n + (8 * i))]
    exact chunk_extract _ hpmaxw (by omega)
  have eS5 : ∀ i, i < n → fieldAt B (256 + 120 * n + 8 * i) 8 = dmins.getD i [] := by
    intro i hi
    rw [hB]
    rw [fieldAt_peel _ 8 hver (by omega : 256 + 120 * n + 8 * i = 8 + (248 + 120 * n + 8 * i)),
      fieldAt_peel _ 8 hpid (by omega : 248 + 120 * n + 8 * i = 80 + (168 + 120 * n + 8 * i)),
      fieldAt_peel _ 8 hrid (by omega : 168 + 120 * n + 8 * i = 80 + (88 + 120 * n + 8 * i)),
      fieldAt_peel _ 8 hdat (by omega : 88 + 120 * n + 8 * i = 8 + (80 + 120 * n + 8 * i)),
      fieldAt_peel _ 8 htim (by omega : 80 + 120 * n + 8 * i = 8 + (72 + 120 * n + 8 * i)),
      fieldAt_peel _ 8 hhbs (by omega : 72 + 120 * n + 8 * i = 8 + (64 + 120 * n + 8 * i)),
      fieldAt_peel _ 8 hres (by omega : 64 + 120 * n + 8 * i = 44 + (20 + 120 * n + 8 * i)),
      fieldAt_peel _ 8 hdrs (by omega : 20 + 120 * n + 8 * i = 8 + (12 + 120 * n + 8 * i)),
      fieldAt_peel _ 8 hdur (by omega : 12 + 120 * n + 8 * i = 8 + (4 + 120 * n + 8 * i)),
      fieldAt_peel _ 8 hscs (by omega : 4 + 120 * n + 8 * i = 4 + (120 * n + 8 * i)),
      fieldAt_peel _ 8 Llab (by omega : 120 * n + 8 * i = 16 * n + (104 * n + 8 * i)),
      fieldAt_peel _ 8 Ltra (by omega : 104 * n + 8 * i = 80 * n + (24 * n + 8 * i)),
      fieldAt_peel _ 8 Ldim (by omega : 24 * n + 8 * i = 8 * n + (16 * n + 8 * i)),
      fieldAt_peel _ 8 Lpmin (by omega : 16 * n + 8 * i = 8 * n + (8 * n + 8 * i)),
      fieldAt_peel _ 8 Lpmax (by omega : 8 * n + 8 * i = 8 * n + (8 * i))]
    exact chunk_extract _ hdminw (by omega)
  have eS6 : ∀ i, i < n → fieldAt B (256 + 128 * n + 8 * i) 8 = dmaxs.getD i [] := by
    intro i hi
    rw [hB]
    rw [fieldAt_peel _ 8 hver (by omega : 256 + 128 * n + 8 * i = 8 + (248 + 128 * n + 8 * i)),
      fieldAt_peel _ 8 hpid (by omega : 248 + 128 * n + 8 * i = 80 + (168 + 128 * n + 8 * i)),
      fieldAt_peel _ 8 hrid (by omega : 168 + 128 * n + 8 * i = 80 + (88 + 128 * n + 8 * i)),
      fieldAt_peel _ 8 hdat (by omega : 88 + 128 * n + 8 * i = 8 + (80 + 128 * n + 8 * i)),
      fieldAt_peel _ 8 htim (by omega : 80 + 128 * n + 8 * i = 8 + (72 + 128 * n + 8 * i)),
      fieldAt_peel _ 8 hhbs (by omega : 72 + 128 * n + 8 * i = 8 + (64 + 128 * n + 8 * i)),
      fieldAt_peel _ 8 hres (by omega : 64 + 128 * n + 8 * i = 44 + (20 + 128 * n + 8 * i)),
      fieldAt_peel _ 8 hdrs (by omega : 20 + 128 * n + 8 * i = 8 + (12 + 128 * n + 8 * i)),
      fieldAt_peel _ 8 hdur (by omega : 12 + 128 * n + 8 * i = 8 + (4 + 128 * n + 8 * i)),
      fieldAt_peel _ 8 hscs (by omega : 4 + 128 * n + 8 * i = 4 + (128 * n + 8 * i)),
      fieldAt_peel _ 8 Llab (by omega : 128 * n + 8 * i = 16 * n + (112 * n + 8 * i)),
      fieldAt_peel _ 8 Ltra (by omega : 112 * n + 8 * i = 80 * n + (32 * n + 8 * i)),
      fieldAt_peel _ 8 Ldim (by omega : 32 * n + 8 * i = 8 * n + (24 * n + 8 * i)),
      fieldAt_peel _ 8 Lpmin (by omega : 24 * n + 8 * i = 8 * n + (16 * n + 8 * i)),
      fieldAt_peel _ 8 Lpmax (by omega : 16 * n + 8 * i = 8 * n + (8 * n + 8 * i)),
      fieldAt_peel _ 8 Ldmin (by omega : 8 * n + 8 * i = 8 * n + (8 * i))]
    exact chunk_extract _ hdmaxw (by omega)
  have eS7 : ∀ i, i < n → fieldAt B (256 + 136 * n + 80 * i) 80 = prefs.getD i [] := by
    intro i hi
    rw [hB]
    rw [fieldAt_peel _ 80 hver (by omega : 256 + 136 * n + 80 * i = 8 + (248 + 136 * n + 80 * i)),
      fieldAt_peel _ 80 hpid (by omega : 248 + 136 * n + 80 * i = 80 + (168 + 136 * n + 80 * i)),
      fieldAt_peel _ 80 hrid (by omega : 168 + 136 * n + 80 * i = 80 + (88 + 136 * n + 80 * i)),
      fieldAt_peel _ 80 hdat (by omega : 88 + 136 * n + 80 * i = 8 + (80 + 136 * n + 80 * i)),
      fieldAt_peel _ 80 htim (by omega : 80 + 136 * n + 80 * i = 8 + (72 + 136 * n + 80 * i)),
      fieldAt_peel _ 80 hhbs (by omega : 72 + 136 * n + 80 * i = 8 + (64 + 136 * n + 80 * i)),
      fieldAt_peel _ 80 hres (by omega : 64 + 136 * n + 80 * i = 44 + (20 + 136 * n + 80 * i)),
      fieldAt_peel _ 80 hdrs (by omega : 20 + 136 * n + 80 * i = 8 + (12 + 136 * n + 80 * i)),
      fieldAt_peel _ 80 hdur (by omega : 12 + 136 * n + 80 * i = 8 + (4 + 136 * n + 80 * i)),
      fieldAt_peel _ 80 hscs (by omega : 4 + 136 * n + 80 * i = 4 + (136 * n + 80 * i)),
      fieldAt_peel _ 80 Llab (by omega : 136 * n + 80 * i = 16 * n + (120 * n + 80 * i)),
      fieldAt_peel _ 80 Ltra (by omega : 120 * n + 80 * i = 80 * n + (40 * n + 80 * i)),
      fieldAt_peel _ 80 Ldim (by omega : 40 * n + 80 * i = 8 * n + (32 * n + 80 * i)),
      fieldAt_peel _ 80 Lpmin (by omega : 32 * n + 80 * i = 8 * n + (24 * n + 80 * i)),
      fieldAt_peel _ 80 Lpmax (by omega : 24 * n + 80 * i = 8 * n + (16 * n + 80 * i)),
      fieldAt_peel _ 80 Ldmin (by omega : 16 * n + 80 * i = 8 * n + (8 * n + 80 * i)),
      fieldAt_peel _ 80 Ldmax (by omega : 8 * n + 80 * i = 8 * n + (80 * i))]
    exact chunk_extract _ hprefw (by omega)
  have eS8 : ∀ i, i < n → fieldAt B (256 + 216 * n + 8 * i) 8 = sprs.getD i [] := by
    intro i hi
    rw [hB]
    rw [fieldAt_peel _ 8 hver (by omega : 256 + 216 * n + 8 * i = 8 + (248 + 216 * n + 8 * i)),
      fieldAt_peel _ 8 hpid (by omega : 248 + 216 * n + 8 * i = 80 + (168 + 216 * n + 8 * i)),
      fieldAt_peel _ 8 hrid (by omega : 168 + 216 * n + 8 * i = 80 + (88 + 216 * n + 8 * i)),
      fieldAt_peel _ 8 hdat (by omega : 88 + 216 * n + 8 * i = 8 + (80 + 216 * n + 8 * i)),
      fieldAt_peel _ 8 htim (by omega : 80 + 216 * n + 8 * i = 8 + (72 + 216 * n + 8 * i)),
      fieldAt_peel _ 8 hhbs (by omega : 72 + 216 * n + 8 * i = 8 + (64 + 216 * n + 8 * i)),
      fieldAt_peel _ 8 hres (by omega : 64 + 216 * n + 8 * i = 44 + (20 + 216 * n + 8 * i)),
      fieldAt_peel _ 8 hdrs (by omega : 20 + 216 * n + 8 * i = 8 + (12 + 216 * n + 8 * i)),
      fieldAt_peel _ 8 hdur (by omega : 12 + 216 * n + 8 * i = 8 + (4 + 216 * n + 8 * i)),
      fieldAt_peel _ 8 hscs (by omega : 4 + 216 * n + 8 * i = 4 + (216 * n + 8 * i)),
      fieldAt_peel _ 8 Llab (by omega : 216 * n + 8 * i = 16 * n + (200 * n + 8 * i)),
      fieldAt_peel _ 8 Ltra (by omega : 200 * n + 8 * i = 80 * n + (120 * n + 8 * i)),
      fieldAt_peel _ 8 Ldim (by omega : 120 * n + 8 * i = 8 * n + (112 * n + 8 * i)),
      fieldAt_peel _ 8 Lpmin (by omega : 112 * n + 8 * i = 8 * n + (104 * n + 8 * i)),
      fieldAt_peel _ 8 Lpmax (by omega : 104 * n + 8 * i = 8 * n + (96 * n + 8 * i)),
      fieldAt_peel _ 8 Ldmin (by omega : 96 * n + 8 * i = 8 * n + (88 * n + 8 * i)),
      fieldAt_peel _ 8 Ldmax (by omega : 88 * n + 8 * i = 8 * n + (80 * n + 8 * i)),
      fieldAt_peel _ 8 Lpref (by omega : 80 * n + 8 * i = 80 * n + (8 * i))]
    exact chunk_extract _ hsprw (by omega)
  have eS9 : ∀ i, i < n → fieldAt B (256 + 224 * n + 32 * i) 32 = ress.getD i [] := by
    intro i hi
    rw [hB]
    rw [fieldAt_peel _ 32 hver (by omega : 256 + 224 * n + 32 * i = 8 + (248 + 224 * n + 32 * i)),
      fieldAt_peel _ 32 hpid (by omega : 248 + 224 * n + 32 * i = 80 + (168 + 224 * n + 32 * i)),
      fieldAt_peel _ 32 hrid (by omega : 168 + 224 * n + 32 * i = 80 + (88 + 224 * n + 32 * i)),
      fieldAt_peel _ 32 hdat (by omega : 88 + 224 * n + 32 * i = 8 + (80 + 224 * n + 32 * i)),
      fieldAt_peel _ 32 htim (by omega : 80 + 224 * n + 32 * i = 8 + (72 + 224 * n + 32 * i)),
      fieldAt_peel _ 32 hhbs (by omega : 72 + 224 * n + 32 * i = 8 + (64 + 224 * n + 32 * i)),
      fieldAt_peel _ 32 hres (by omega : 64 + 224 * n + 32 * i = 44 + (20 + 224 * n + 32 * i)),
      fieldAt_peel _ 32 hdrs (by omega : 20 + 224 * n + 32 * i = 8 + (12 + 224 * n + 32 * i)),
      fieldAt_peel _ 32 hdur (by omega : 12 + 224 * n + 32 * i = 8 + (4 + 224 * n + 32 * i)),
      fieldAt_peel _ 32 hscs (by omega : 4 + 224 * n + 32 * i = 4 + (224 * n + 32 * i)),
      fieldAt_peel _ 32 Llab (by omega : 224 * n + 32 * i = 16 * n + (208 * n + 32 * i)),
      fieldAt_peel _ 32 Ltra (by omega : 208 * n + 32 * i = 80 * n + (128 * n + 32 * i)),
      fieldAt_peel _ 32 Ldim (by omega : 128 * n + 32 * i = 8 * n + (120 * n + 32 * i)),
      fieldAt_peel _ 32 Lpmin (by omega : 120 * n + 32 * i = 8 * n + (112 * n + 32 * i)),
      fieldAt_peel _ 32 Lpmax (by omega : 112 * n + 32 * i = 8 * n + (104 * n + 32 * i)),
      fieldAt_peel _ 32 Ldmin (by omega : 104 * n + 32 * i = 8 * n + (96 * n + 32 * i)),
      fieldAt_peel _ 32 Ldmax (by omega : 96 * n + 32 * i = 8 * n + (88 * n + 32 * i)),
      fieldAt_peel _ 32 Lpref (by omega : 88 * n + 32 * i = 80 * n + (8 * n + 32 * i)),
      fieldAt_peel _ 32 Lspr (by omega : 8 * n + 32 * i = 8 * n + (32 * i))]
    exact chunk_extract _ hresw (by omega)
  have hsig : (List.range n).map (decodeSignal B n) = (List.range n).map (fun i =>
      ({ label := trimChars (labs.getD i [])
         transducerType := trimChars (trans.getD i [])
         physicalDimension := trimChars (dims.getD i [])
         physicalMin := parseFloat (pmins.getD i [])
         physicalMax := parseFloat (pmaxs.getD i [])
         digitalMin := parseInt (dmins.getD i [])
         digitalMax := parseInt (dmaxs.getD i [])
         prefiltering := trimChars (prefs.getD i [])
         samplesPerRecord := parseInt (sprs.getD i [])
         reserved := trimChars (ress.getD i []) } : Signal)) := by
    apply List.map_congr_left
    intro i hi
    rw [List.mem_range] at hi
    rw [decodeSignal, eS0 i hi, eS1 i hi, eS2 i hi, eS3 i hi, eS4 i hi,
      eS5 i hi, eS6 i hi, eS7 i hi, eS8 i hi, eS9 i hi]
  rw [Open]
  rw [if_neg (by omega)]
  rw [e168, pdt, e176, ptm, e184, phb, e236, pdr, e244, pdu, e252, psc]
  simp only [ok_bind, Int.toNat_natCast]
  rw [if_neg (by omega)]
  rw [e0, e8, e88, hsig]

theorem getD_map_lt {α β : Type} (f : α → β) (l : List α) (i : Nat) (d : β)
    (h : i < l.length) : (l.map f).getD i d = f (l[i]) := by
  rw [List.getD_eq_getElem?_getD, List.getElem?_map, List.getElem?_eq_getElem h]
  rfl

/-- Header that decoding an encoded valid header reproduces: `headerBytes`
is recomputed from the signal count and every signal's `reserved` text
comes back empty (the encoder always writes blanks there). -/
def roundTripHeader (hdr : Header) : Header :=
  { hdr with headerBytes := 256 + hdr.signalCount * 256,
             signals := hdr.signals.map (fun s => { s with reserved := ([] : Str) }) }

set_option maxHeartbeats 2000000 in
/-- Decoding an encoded valid header (with arbitrary trailing bytes)
reproduces the model up to the recomputed `headerBytes` and the emptied
per-signal `reserved` fields. -/
theorem Open_headerChars {hdr : Header} (h : validHeader hdr) (rest : Str) :
    Open (headerChars hdr ++ rest) = .ok (roundTripHeader hdr) := by
  obtain ⟨hsc, hv, hp, hr, hdt, hdm, hdf, hdr8, hsc4, hsigs⟩ := h
  have hsc0 : 0 ≤ hdr.signalCount := by rw [hsc]; positivity
  have hkdef : hdr.dataRecordDuration = Int.ediv hdr.dataRecordDuration 1000000000 * 1000000000 :=
    (Int.ediv_mul_cancel (Int.dvd_of_emod_eq_zero hdm)).symm
  have hceil : ceilSecs hdr.dataRecordDuration = Int.ediv hdr.dataRecordDuration 1000000000 := by
    conv_lhs => rw [hkdef]
    exact ceilSecs_exact _
  have hdurfit : (intChars (ceilSecs hdr.dataRecordDuration)).length ≤ 8 := by
    rw [hceil]; exact hdf
  have hw1 : ∀ x ∈ hdr.signals.map (fun s => padChars s.label 16), x.length = 16 := by
    intro x hx
    obtain ⟨s, hs, rfl⟩ := List.mem_map.mp hx
    exact padChars_length (hsigs s hs).1.1
  have hw2 : ∀ x ∈ hdr.signals.map (fun s => padChars s.transducerType 80), x.length = 80 := by
    intro x hx
    obtain ⟨s, hs, rfl⟩ := List.mem_map.mp hx
    exact padChars_length (hsigs s hs).2.1.1
  have hw3 : ∀ x ∈ hdr.signals.map (fun s => padChars s.physicalDimension 8), x.length = 8 := by
    intro x hx
    obtain ⟨s, hs, rfl⟩ := List.mem_map.mp hx
    exact padChars_length (hsigs s hs).2.2.1.1
  have hw4 : ∀ x ∈ hdr.signals.map (fun s => physChars s.physicalMin), x.length = 8 := by
    intro x hx
    obtain ⟨s, hs, rfl⟩ := List.mem_map.mp hx
    exact physChars_length (hsigs s hs).2.2.2.2.1.1
  have hw5 : ∀ x ∈ hdr.signals.map (fun s => physChars s.physicalMax), x.length = 8 := by
    intro x hx
    obtain ⟨s, hs, rfl⟩ := List.mem_map.mp hx
    exact physChars_length (hsigs s hs).2.2.2.2.2.1.1
  have hw6 : ∀ x ∈ hdr.signals.map (fun s => padChars (intChars s.digitalMin) 8), x.length = 8 := by
    intro x hx
    obtain ⟨s, hs, rfl⟩ := List.mem_map.mp hx
    exact padChars_length (hsigs s hs).2.2.2.2.2.2.1
  have hw7 : ∀ x ∈ hdr.signals.map (fun s => padChars (intChars s.digitalMax) 8), x.length = 8 := by
    intro x hx
    obtain ⟨s, hs, rfl⟩ := List.mem_map.mp hx
    exact padChars_length (hsigs s hs).2.2.2.2.2.2.2.1
  have hw8 : ∀ x ∈ hdr.signals.map (fun s => padChars s.prefiltering 80), x.length = 80 := by
    intro x hx
    obtain ⟨s, hs, rfl⟩ := List.mem_map.mp hx
    exact padChars_length (hsigs s hs).2.2.2.1.1
  have hw9 : ∀ x ∈ hdr.signals.map (fun s => padChars (intChars s.samplesPerRecord) 8), x.length = 8 := by
    intro x hx
    obtain ⟨s, hs, rfl⟩ := List.mem_map.mp hx
    exact padChars_length (hsigs s hs).2.2.2.2.2.2.2.2
  have hw10 : ∀ x ∈ hdr.signals.map (fun _ => padChars ([] : Str) 32), x.length = 32 := by
    intro x hx
    obtain ⟨s, hs, rfl⟩ := List.mem_map.mp hx
    exact padChars_length (by simp)
  have hpsc : atoi (trimChars (padChars (intChars hdr.signalCount) 4))
      = some ((hdr.signals.length : Int)) := by
    rw [atoi_trim_pad_intChars 4 (le_trans hsc4 (by omega)), hsc]
  have main := Open_assembled
    (padChars hdr.version 8) (padChars hdr.patientId 80) (padChars hdr.recordingId 80)
    (padChars (formatDate hdr.startTime) 8) (padChars (formatTime hdr.startTime) 8)
    (padChars (intChars (256 + hdr.signalCount * 256)) 8) (padChars [] 44)
    (padChars (intChars hdr.dataRecords) 8) (padChars (intChars (ceilSecs hdr.dataRecordDuration)) 8)
    (padChars (intChars hdr.signalCount) 4) rest
    (hdr.signals.map (fun s => padChars s.label 16))
    (hdr.signals.map (fun s => padChars s.transducerType 80))
    (hdr.signals.map (fun s => padChars s.physicalDimension 8))
    (hdr.signals.map (fun s => physChars s.physicalMin))
    (hdr.signals.map (fun s => physChars s.physicalMax))
    (hdr.signals.map (fun s => padChars (intChars s.digitalMin) 8))
    (hdr.signals.map (fun s => padChars (intChars s.digitalMax) 8))
    (hdr.signals.map (fun s => padChars s.prefiltering 80))
    (hdr.signals.map (fun s => padChars (intChars s.samplesPerRecord) 8))
    (hdr.signals.map (fun _ => padChars [] 32))
    hdr.signals.length
    hdr.startTime.year hdr.startTime.month hdr.startTime.day
    hdr.startTime.hour hdr.startTime.minute hdr.startTime.second
    (256 + hdr.signalCount * 256) hdr.dataRecords hdr.dataRecordDuration
    (padChars_length hv.1) (padChars_length hp.1) (padChars_length hr.1)
    (padChars_length (le_of_eq (formatDate_length hdt)))
    (padChars_length (le_of_eq (formatTime_length hdt)))
    (padChars_length (headerBytesFits hsc0 hsc4))
    (padChars_length (by simp : ([] : Str).length ≤ 44))
    (padChars_length hdr8) (padChars_length hdurfit) (padChars_length hsc4)
    (List.length_map _ _) hw1 (List.length_map _ _) hw2 (List.length_map _ _) hw3
    (List.length_map _ _) hw4 (List.length_map _ _) hw5 (List.length_map _ _) hw6
    (List.length_map _ _) hw7 (List.length_map _ _) hw8 (List.length_map _ _) hw9
    (List.length_map _ _) hw10
    (parseDate_roundTrip hdt) (parseTime_roundTrip hdt)
    (atoi_trim_pad_intChars 8 (headerBytesFits hsc0 hsc4))
    (atoi_trim_pad_intChars 8 hdr8)
    (parseDuration_roundTrip hdm hdf)
    hpsc
  have hshape : headerChars hdr ++ rest
      = padChars hdr.version 8 ++ (padChars hdr.patientId 80 ++ (padChars hdr.recordingId 80 ++ (padChars (formatDate hdr.startTime) 8 ++ (padChars (formatTime hdr.startTime) 8 ++ (padChars (intChars (256 + hdr.signalCount * 256)) 8 ++ (padChars [] 44 ++ (padChars (intChars hdr.dataRecords) 8 ++ (padChars (intChars (ceilSecs hdr.dataRecordDuration)) 8 ++ (padChars (intChars hdr.signalCount) 4 ++ ((hdr.signals.map (fun s => padChars s.label 16)).flatten ++ ((hdr.signals.map (fun s => padChars s.transducerType 80)).flatten ++ ((hdr.signals.map (fun s => padChars s.physicalDimension 8)).flatten ++ ((hdr.signals.map (fun s => physChars s.physicalMin)).flatten ++ ((hdr.signals.map (fun s => physChars s.physicalMax)).flatten ++ ((hdr.signals.map (fun s => padChars (intChars s.digitalMin) 8)).flatten ++ ((hdr.signals.map (fun s => padChars (intChars s.digitalMax) 8)).flatten ++ ((hdr.signals.map (fun s => padChars s.prefiltering 80)).flatten ++ ((hdr.signals.map (fun s => padChars (intChars s.samplesPerRecord) 8)).flatten ++ ((hdr.signals.map (fun _ => padChars [] 32)).flatten ++ (rest)))))))))))))))))))) := by
    simp only [headerChars, List.append_assoc]
  rw [hshape, main]
  have hs2 : (List.range hdr.signals.length).map (fun i =>
      ({ label := trimChars ((hdr.signals.map (fun s => padChars s.label 16)).getD i [])
         transducerType := trimChars ((hdr.signals.map (fun s => padChars s.transducerType 80)).getD i [])
         physicalDimension := trimChars ((hdr.signals.map (fun s => padChars s.physicalDimension 8)).getD i [])
         physicalMin := parseFloat ((hdr.signals.map (fun s => physChars s.physicalMin)).getD i [])
         physicalMax := parseFloat ((hdr.signals.map (fun s => physChars s.physicalMax)).getD i [])
         digitalMin := parseInt ((hdr.signals.map (fun s => padChars (intChars s.digitalMin) 8)).getD i [])
         digitalMax := parseInt ((hdr.signals.map (fun s => padChars (intChars s.digitalMax) 8)).getD i [])
         prefiltering := trimChars ((hdr.signals.map (fun s => padChars s.prefiltering 80)).getD i [])
         samplesPerRecord := parseInt ((hdr.signals.map (fun s => padChars (intChars s.samplesPerRecord) 8)).getD i [])
         reserved := trimChars ((hdr.signals.map (fun _ => padChars [] 32)).getD i []) } : Signal))
      = hdr.signals.map (fun s => { s with reserved := ([] : Str) }) := by
    apply List.ext_getElem
    · simp
    · intro i h1 h2
      have hi : i < hdr.signals.length := by simpa using h2
      have hsi := hsigs (hdr.signals[i]) (hdr.signals.getElem_mem hi)
      simp only [List.getElem_map, List.getElem_range]
      rw [getD_map_lt _ _ _ _ hi, getD_map_lt _ _ _ _ hi, getD_map_lt _ _ _ _ hi,
        getD_map_lt _ _ _ _ hi, getD_map_lt _ _ _ _ hi, getD_map_lt _ _ _ _ hi,
        getD_map_lt _ _ _ _ hi, getD_map_lt _ _ _ _ hi, getD_map_lt _ _ _ _ hi,
        getD_map_lt _ _ _ _ hi]
      rw [trim_pad 16 hsi.1.2.1, trim_pad 80 hsi.2.1.2.1, trim_pad 8 hsi.2.2.1.2.1,
        hsi.2.2.2.2.1.2, hsi.2.2.2.2.2.1.2,
        parseInt_pad_intChars 8 hsi.2.2.2.2.2.2.1, parseInt_pad_intChars 8 hsi.2.2.2.2.2.2.2.1,
        trim_pad 80 hsi.2.2.2.1.2.1, parseInt_pad_intChars 8 hsi.2.2.2.2.2.2.2.2,
        trim_pad 32 (by rfl : trimChars ([] : Str) = [])]
  rw [hs2, ← hsc, trim_pad 8 hv.2.1, trim_pad 80 hp.2.1, trim_pad 80 hr.2.1, roundTripHeader]

/-! Claim theorems. -/

/-- C7: `physicalToDigital` returns 0 whenever `physicalMax = physicalMin`,
and `digitalToPhysical` returns 0 whenever `digitalMax = digitalMin`,
regardless of the input value and of the other calibration bounds. -/
theorem claim_C7 :
    (∀ (physical pmin : ℚ) (dmin dmax : Int),
      convertPhysicalToDigital physical pmin pmin dmin dmax = 0) ∧
    (∀ (digital dmin : Int) (pmin pmax : ℚ),
      convertDigitalToPhysical digital dmin dmin pmin pmax = 0) := by
  constructor
  · intro physical pmin dmin dmax
    rw [convertPhysicalToDigital, if_pos rfl]
  · intro digital dmin pmin pmax
    rw [convertDigitalToPhysical, if_pos rfl]

theorem int16Wrap_bounds (n : Int) : -32768 ≤ int16Wrap n ∧ int16Wrap n < 32768 := by
  rw [int16Wrap]
  have h1 : 0 ≤ Int.emod (n + 32768) 65536 := Int.emod_nonneg _ (by norm_num)
  have h2 : Int.emod (n + 32768) 65536 < 65536 := Int.emod_lt_of_pos _ (by norm_num)
  omega

theorem int16Wrap_emod (n : Int) : Int.emod (int16Wrap n) 65536 = Int.emod n 65536 := by
  have he : ∀ a b : Int, Int.emod a b = a % b := fun _ _ => rfl
  rw [int16Wrap]
  simp only [he]
  omega

/-- C3: with distinct physical bounds, `physicalToDigital` computes the
affine map, truncates toward zero, and reduces the result into the signed
16-bit range by two's-complement wrapping: the result is congruent to the
truncated affine value modulo 2^16 and lies in [-32768, 32768), so an
out-of-range value wraps instead of clamping. -/
theorem claim_C3 (physical pmin pmax : ℚ) (dmin dmax : Int) (h : pmax ≠ pmin) :
    Int.emod (convertPhysicalToDigital physical pmin pmax dmin dmax) 65536
      = Int.emod (ratTrunc ((physical - pmin) * ((dmax - dmin : Int) : ℚ) / (pmax - pmin)
          + (dmin : ℚ))) 65536
    ∧ -32768 ≤ convertPhysicalToDigital physical pmin pmax dmin dmax
    ∧ convertPhysicalToDigital physical pmin pmax dmin dmax < 32768 := by
  rw [convertPhysicalToDigital, if_neg h]
  exact ⟨int16Wrap_emod _, (int16Wrap_bounds _).1, (int16Wrap_bounds _).2⟩

attribute [local semireducible] Rat.add Rat.mul Rat.sub Rat.inv in
/-- Witness for C3 at a concrete input: bounds (0, 1) and digital range
(0, 100000) wrap the out-of-range affine image of 5. -/
theorem claim_C3_witness :
    ((1 : ℚ) ≠ 0) ∧
    (Int.emod (convertPhysicalToDigital 5 0 1 0 100000) 65536
      = Int.emod (ratTrunc ((5 - 0) * (((100000 : Int) - 0 : Int) : ℚ) / ((1 : ℚ) - 0)
          + ((0 : Int) : ℚ))) 65536
    ∧ -32768 ≤ convertPhysicalToDigital 5 0 1 0 100000
    ∧ convertPhysicalToDigital 5 0 1 0 100000 < 32768) :=
  ⟨by decide, claim_C3 5 0 1 0 100000 (by decide)⟩

/-- C8: a record whose channel count differs from the header's
`signalCount` is rejected with the signal-count-mismatch error; the
returned value carries no new writer state, so the sink and the record
counter are unchanged. -/
theorem claim_C8 (ew : EDFWriter) (signals : List (List ℚ))
    (h : (signals.length : Int) ≠ ew.hdr.signalCount) :
    WriteRecord ew signals = .error (.signalCountMismatch ew.hdr.signalCount signals.length) := by
  rw [WriteRecord, if_pos h]

/-- Writer state used by the C8 witness: a two-signal header. -/
def mismatchWriter : EDFWriter :=
  { hdr := { version := [], patientId := [], recordingId := [],
             startTime := { year := 2024, month := 1, day := 1, hour := 0, minute := 0, second := 0 },
             headerBytes := 0, dataRecordDuration := 0, dataRecords := 0, signalCount := 2,
             signals := [] },
    dataRecords := 0, file := [], pos := 0 }

/-- Witness for C8: one channel supplied against a two-signal header. -/
theorem claim_C8_witness :
    (((1 : Nat) : Int) ≠ mismatchWriter.hdr.signalCount) ∧
    WriteRecord mismatchWriter [ [ 1 ] ] = .error (.signalCountMismatch 2 1) :=
  ⟨by decide, claim_C8 _ _ (by decide)⟩

/-- Header used to show the record-size ceiling is not an encode-time
check: its single signal advertises 40000 samples per record (80000 bytes
per record, beyond 61440), yet the header encodes. -/
def oversizedHeader : Header :=
  { version := [ '0' ], patientId := [], recordingId := [],
    startTime := { year := 2024, month := 1, day := 1, hour := 0, minute := 0, second := 0 },
    headerBytes := 0, dataRecordDuration := 1000000000, dataRecords := 0, signalCount := 1,
    signals := [ { label := [], transducerType := [], physicalDimension := [],
                   physicalMin := 0, physicalMax := 1, digitalMin := 0, digitalMax := 1,
                   prefiltering := [], samplesPerRecord := 40000, reserved := [] } ] }

attribute [local semireducible] Rat.add Rat.mul Rat.sub Rat.inv in
/-- C9: a record whose total sample bytes exceed 61440 is rejected with
the record-too-large error before any sample byte is produced, while a
header whose declared per-record span exceeds 61440 bytes still encodes:
the ceiling is enforced at write time, not at header-encode time. -/
theorem claim_C9 :
    (∀ (ew : EDFWriter) (signals : List (List ℚ)),
      (signals.length : Int) = ew.hdr.signalCount →
      61440 < 2 * (totalSamples signals : Int) →
      WriteRecord ew signals = .error (.recordTooLarge (2 * totalSamples signals))) ∧
    (writeHeader oversizedHeader).isOk = true ∧
    61440 < 2 * ((oversizedHeader.signals.map (fun s => s.samplesPerRecord)).sum) := by
  refine ⟨?_, by decide, by decide⟩
  intro ew signals hcount hsize
  rw [WriteRecord, if_neg (not_not_intro hcount), if_pos hsize]

theorem totalSamples_single (n : Nat) (q : ℚ) :
    totalSamples [ List.replicate n q ] = n := by
  simp [totalSamples]

/-- Witness for C9: a one-signal writer fed 30721 samples (61442 bytes). -/
theorem claim_C9_witness :
    ((((([ List.replicate 30721 (0 : ℚ) ] : List (List ℚ)).length : Int))
        = ({ hdr := oversizedHeader, dataRecords := 0, file := [], pos := 0 } : EDFWriter).hdr.signalCount) ∧
      61440 < 2 * ((totalSamples [ List.replicate 30721 (0 : ℚ) ] : Nat) : Int)) ∧
    WriteRecord { hdr := oversizedHeader, dataRecords := 0, file := [], pos := 0 }
        [ List.replicate 30721 (0 : ℚ) ]
      = .error (.recordTooLarge (2 * totalSamples [ List.replicate 30721 (0 : ℚ) ])) :=
  ⟨⟨by decide, by rw [totalSamples_single]; decide⟩,
   claim_C9.1 _ _ (by decide) (by rw [totalSamples_single]; decide)⟩

/-! Encoding never silently truncates: inversion of `writeHeader`. -/

theorem wc_cases (s : Str) (w : Nat) :
    writeChecked s w = .ok (padChars s w) ∨ writeChecked s w = .error (.fieldTooLong s w) := by
  rw [writeChecked]
  split
  · exact .inr rfl
  · exact .inl rfl

theorem wc_ok_len {s : Str} {w : Nat} {x : Str} (h : writeChecked s w = .ok x) :
    s.length ≤ w := by
  rw [writeChecked] at h
  split at h
  · exact absurd h (by simp)
  · omega

theorem fpv_cases (v : ℚ) :
    (∃ x, formatPhysicalValue v = .ok x) ∨ ∃ s w, formatPhysicalValue v = .error (.fieldTooLong s w) := by
  rw [formatPhysicalValue]
  dsimp only
  split
  · split
    · exact .inr ⟨_, _, rfl⟩
    · exact .inl ⟨_, rfl⟩
  · exact .inl ⟨_, rfl⟩

set_option maxHeartbeats 2000000 in
/-- Every failure of `writeHeader` is a width violation: the encoder
either succeeds or returns a `fieldTooLong` error. -/
theorem writeHeader_cases (hdr : Header) :
    (∃ c, writeHeader hdr = .ok c) ∨ ∃ v w, writeHeader hdr = .error (.fieldTooLong v w) := by
  rw [writeHeader]
  rcases wc_cases hdr.version 8 with h1 | h1
  swap
  · rw [h1]; exact .inr ⟨_, _, rfl⟩
  rw [h1]
  rcases wc_cases hdr.patientId 80 with h2 | h2
  swap
  · rw [h2]; exact .inr ⟨_, _, rfl⟩
  rw [h2]
  rcases wc_cases hdr.recordingId 80 with h3 | h3
  swap
  · rw [h3]; exact .inr ⟨_, _, rfl⟩
  rw [h3]
  rcases wc_cases (formatDate hdr.startTime) 8 with h4 | h4
  swap
  · rw [h4]; exact .inr ⟨_, _, rfl⟩
  rw [h4]
  rcases wc_cases (formatTime hdr.startTime) 8 with h5 | h5
  swap
  · rw [h5]; exact .inr ⟨_, _, rfl⟩
  rw [h5]
  rcases wc_cases (intChars (256 + hdr.signalCount * 256)) 8 with h6 | h6
  swap
  · rw [h6]; exact .inr ⟨_, _, rfl⟩
  rw [h6]
  rcases wc_cases ([] : Str) 44 with h7 | h7
  swap
  · rw [h7]; exact .inr ⟨_, _, rfl⟩
  rw [h7]
  rcases wc_cases (intChars hdr.dataRecords) 8 with h8 | h8
  swap
  · rw [h8]; exact .inr ⟨_, _, rfl⟩
  rw [h8]
  rcases wc_cases (intChars (ceilSecs hdr.dataRecordDuration)) 8 with h9 | h9
  swap
  · rw [h9]; exact .inr ⟨_, _, rfl⟩
  rw [h9]
  rcases wc_cases (intChars hdr.signalCount) 4 with h10 | h10
  swap
  · rw [h10]; exact .inr ⟨_, _, rfl⟩
  rw [h10]
  have hf1 : ∀ x ∈ hdr.signals, (∃ y, writeChecked x.label 16 = Except.ok y)
      ∨ ∃ v w, writeChecked x.label 16 = Except.error (.fieldTooLong v w) := by
    intro x _
    rcases wc_cases x.label 16 with h | h
    · exact .inl ⟨_, h⟩
    · exact .inr ⟨_, _, h⟩
  rcases mapM_tooLong _ hf1 with ⟨ys1, hm1⟩ | ⟨v1, w1, hm1⟩
  swap
  · rw [hm1]; exact .inr ⟨_, _, rfl⟩
  rw [hm1]
  have hf2 : ∀ x ∈ hdr.signals, (∃ y, writeChecked x.transducerType 80 = Except.ok y)
      ∨ ∃ v w, writeChecked x.transducerType 80 = Except.error (.fieldTooLong v w) := by
    intro x _
    rcases wc_cases x.transducerType 80 with h | h
    · exact .inl ⟨_, h⟩
    · exact .inr ⟨_, _, h⟩
  rcases mapM_tooLong _ hf2 with ⟨ys2, hm2⟩ | ⟨v2, w2, hm2⟩
  swap
  · rw [hm2]; exact .inr ⟨_, _, rfl⟩
  rw [hm2]
  have hf3 : ∀ x ∈ hdr.signals, (∃ y, writeChecked x.physicalDimension 8 = Except.ok y)
      ∨ ∃ v w, writeChecked x.physicalDimension 8 = Except.error (.fieldTooLong v w) := by
    intro x _
    rcases wc_cases x.physicalDimension 8 with h | h
    · exact .inl ⟨_, h⟩
    · exact .inr ⟨_, _, h⟩
  rcases mapM_tooLong _ hf3 with ⟨ys3, hm3⟩ | ⟨v3, w3, hm3⟩
  swap
  · rw [hm3]; exact .inr ⟨_, _, rfl⟩
  rw [hm3]
  have hf4 : ∀ x ∈ hdr.signals, (∃ y, formatPhysicalValue x.physicalMin = Except.ok y)
      ∨ ∃ v w, formatPhysicalValue x.physicalMin = Except.error (.fieldTooLong v w) := by
    intro x _
    exact fpv_cases x.physicalMin
  rcases mapM_tooLong _ hf4 with ⟨ys4, hm4⟩ | ⟨v4, w4, hm4⟩
  swap
  · rw [hm4]; exact .inr ⟨_, _, rfl⟩
  rw [hm4]
  have hf5 : ∀ x ∈ hdr.signals, (∃ y, formatPhysicalValue x.physicalMax = Except.ok y)
      ∨ ∃ v w, formatPhysicalValue x.physicalMax = Except.error (.fieldTooLong v w) := by
    intro x _
    exact fpv_cases x.physicalMax
  rcases mapM_tooLong _ hf5 with ⟨ys5, hm5⟩ | ⟨v5, w5, hm5⟩
  swap
  · rw [hm5]; exact .inr ⟨_, _, rfl⟩
  rw [hm5]
  have hf6 : ∀ x ∈ hdr.signals, (∃ y, writeChecked (intChars x.digitalMin) 8 = Except.ok y)
      ∨ ∃ v w, writeChecked (intChars x.digitalMin) 8 = Except.error (.fieldTooLong v w) := by
    intro x _
    rcases wc_cases (intChars x.digitalMin) 8 with h | h
    · exact .inl ⟨_, h⟩
    · exact .inr ⟨_, _, h⟩
  rcases mapM_tooLong _ hf6 with ⟨ys6, hm6⟩ | ⟨v6, w6, hm6⟩
  swap
  · rw [hm6]; exact .inr ⟨_, _, rfl⟩
  rw [hm6]
  have hf7 : ∀ x ∈ hdr.signals, (∃ y, writeChecked (intChars x.digitalMax) 8 = Except.ok y)
      ∨ ∃ v w, writeChecked (intChars x.digitalMax) 8 = Except.error (.fieldTooLong v w) := by
    intro x _
    rcases wc_cases (intChars x.digitalMax) 8 with h | h
    · exact .inl ⟨_, h⟩
    · exact .inr ⟨_, _, h⟩
  rcases mapM_tooLong _ hf7 with ⟨ys7, hm7⟩ | ⟨v7, w7, hm7⟩
  swap
  · rw [hm7]; exact .inr ⟨_, _, rfl⟩
  rw [hm7]
  have hf8 : ∀ x ∈ hdr.signals, (∃ y, writeChecked x.prefiltering 80 = Except.ok y)
      ∨ ∃ v w, writeChecked x.prefiltering 80 = Except.error (.fieldTooLong v w) := by
    intro x _
    rcases wc_cases x.prefiltering 80 with h | h
    · exact .inl ⟨_, h⟩
    · exact .inr ⟨_, _, h⟩
  rcases mapM_tooLong _ hf8 with ⟨ys8, hm8⟩ | ⟨v8, w8, hm8⟩
  swap
  · rw [hm8]; exact .inr ⟨_, _, rfl⟩
  rw [hm8]
  have hf9 : ∀ x ∈ hdr.signals, (∃ y, writeChecked (intChars x.samplesPerRecord) 8 = Except.ok y)
      ∨ ∃ v w, writeChecked (intChars x.samplesPerRecord) 8 = Except.error (.fieldTooLong v w) := by
    intro x _
    rcases wc_cases (intChars x.samplesPerRecord) 8 with h | h
    · exact .inl ⟨_, h⟩
    · exact .inr ⟨_, _, h⟩
  rcases mapM_tooLong _ hf9 with ⟨ys9, hm9⟩ | ⟨v9, w9, hm9⟩
  swap
  · rw [hm9]; exact .inr ⟨_, _, rfl⟩
  rw [hm9]
  have hf10 : ∀ x ∈ hdr.signals, (∃ y, writeChecked ([] : Str) 32 = Except.ok y)
      ∨ ∃ v w, writeChecked ([] : Str) 32 = Except.error (.fieldTooLong v w) := by
    intro x _
    rcases wc_cases ([] : Str) 32 with h | h
    · exact .inl ⟨_, h⟩
    · exact .inr ⟨_, _, h⟩
  rcases mapM_tooLong _ hf10 with ⟨ys10, hm10⟩ | ⟨v10, w10, hm10⟩
  swap
  · rw [hm10]; exact .inr ⟨_, _, rfl⟩
  rw [hm10]
  exact .inl ⟨_, rfl⟩

set_option maxHeartbeats 2000000 in
/-- Inversion: a successfully encoded header has every checked text
field within its declared width (no truncation can have occurred). -/
theorem writeHeader_ok_fits {hdr : Header} {c : Str} (h : writeHeader hdr = .ok c) :
    hdr.version.length ≤ 8 ∧ hdr.patientId.length ≤ 80 ∧ hdr.recordingId.length ≤ 80 ∧
    ∀ s ∈ hdr.signals, s.label.length ≤ 16 ∧ s.transducerType.length ≤ 80 ∧
      s.physicalDimension.length ≤ 8 ∧ s.prefiltering.length ≤ 80 := by
  rw [writeHeader] at h
  obtain ⟨y1, e1, h⟩ := except_bind_ok h
  obtain ⟨y2, e2, h⟩ := except_bind_ok h
  obtain ⟨y3, e3, h⟩ := except_bind_ok h
  obtain ⟨y4, e4, h⟩ := except_bind_ok h
  obtain ⟨y5, e5, h⟩ := except_bind_ok h
  obtain ⟨y6, e6, h⟩ := except_bind_ok h
  obtain ⟨y7, e7, h⟩ := except_bind_ok h
  obtain ⟨y8, e8, h⟩ := except_bind_ok h
  obtain ⟨y9, e9, h⟩ := except_bind_ok h
  obtain ⟨y10, e10, h⟩ := except_bind_ok h
  obtain ⟨y11, e11, h⟩ := except_bind_ok h
  obtain ⟨y12, e12, h⟩ := except_bind_ok h
  obtain ⟨y13, e13, h⟩ := except_bind_ok h
  obtain ⟨y14, e14, h⟩ := except_bind_ok h
  obtain ⟨y15, e15, h⟩ := except_bind_ok h
  obtain ⟨y16, e16, h⟩ := except_bind_ok h
  obtain ⟨y17, e17, h⟩ := except_bind_ok h
  obtain ⟨y18, e18, h⟩ := except_bind_ok h
  obtain ⟨y19, e19, h⟩ := except_bind_ok h
  obtain ⟨y20, e20, h⟩ := except_bind_ok h
  refine ⟨wc_ok_len e1, wc_ok_len e2, wc_ok_len e3, fun s hs => ⟨?_, ?_, ?_, ?_⟩⟩
  · obtain ⟨y, hy⟩ := mapM_ok_mem e11 s hs
    exact wc_ok_len hy
  · obtain ⟨y, hy⟩ := mapM_ok_mem e12 s hs
    exact wc_ok_len hy
  · obtain ⟨y, hy⟩ := mapM_ok_mem e13 s hs
    exact wc_ok_len hy
  · obtain ⟨y, hy⟩ := mapM_ok_mem e18 s hs
    exact wc_ok_len hy

/-- C1: an over-width text field (version, patient or recording id, or a
signal label, transducer type, physical dimension or prefiltering text)
makes header encoding fail with a field-too-long error, and encoding
never succeeds while silently truncating: success implies every such
field fit its declared width. -/
theorem claim_C1 :
    (∀ hdr : Header,
      (8 < hdr.version.length ∨ 80 < hdr.patientId.length ∨ 80 < hdr.recordingId.length ∨
       ∃ s ∈ hdr.signals, 16 < s.label.length ∨ 80 < s.transducerType.length ∨
         8 < s.physicalDimension.length ∨ 80 < s.prefiltering.length) →
      ∃ v w, writeHeader hdr = .error (.fieldTooLong v w)) ∧
    (∀ (hdr : Header) (c : Str), writeHeader hdr = .ok c →
      hdr.version.length ≤ 8 ∧ hdr.patientId.length ≤ 80 ∧ hdr.recordingId.length ≤ 80 ∧
      ∀ s ∈ hdr.signals, s.label.length ≤ 16 ∧ s.transducerType.length ≤ 80 ∧
        s.physicalDimension.length ≤ 8 ∧ s.prefiltering.length ≤ 80) := by
  constructor
  · intro hdr hviol
    rcases writeHeader_cases hdr with ⟨c, hc⟩ | ⟨v, w, hc⟩
    · exfalso
      obtain ⟨f1, f2, f3, f4⟩ := writeHeader_ok_fits hc
      rcases hviol with hx | hx | hx | ⟨s, hs, hx⟩
      · omega
      · omega
      · omega
      · obtain ⟨g1, g2, g3, g4⟩ := f4 s hs
        rcases hx with hx | hx | hx | hx <;> omega
    · exact ⟨v, w, hc⟩
  · intro hdr c h
    exact writeHeader_ok_fits h

/-- Header with an 81-byte patient identifier, for the C1 witness. -/
def tooLongHeader : Header :=
  { version := [ '0' ], patientId := List.replicate 81 'x', recordingId := [],
    startTime := { year := 2024, month := 1, day := 1, hour := 0, minute := 0, second := 0 },
    headerBytes := 0, dataRecordDuration := 1000000000, dataRecords := 0, signalCount := 0,
    signals := [] }

/-- Witness for C1 at the over-width patient identifier. -/
theorem claim_C1_witness :
    (8 < tooLongHeader.version.length ∨ 80 < tooLongHeader.patientId.length ∨
     80 < tooLongHeader.recordingId.length ∨
     ∃ s ∈ tooLongHeader.signals, 16 < s.label.length ∨ 80 < s.transducerType.length ∨
       8 < s.physicalDimension.length ∨ 80 < s.prefiltering.length) ∧
    ∃ v w, writeHeader tooLongHeader = .error (.fieldTooLong v w) :=
  ⟨by decide, claim_C1.1 tooLongHeader (by decide)⟩

/-- Valid one-signal header mirroring the repository's writer test. -/
def sampleHeader : Header :=
  { version := [ '0' ], patientId := [ 'P', 'X' ], recordingId := [ 'R', '1' ],
    startTime := { year := 2024, month := 5, day := 3, hour := 14, minute := 30, second := 7 },
    headerBytes := 0, dataRecordDuration := 60 * 1000000000, dataRecords := 5, signalCount := 1,
    signals := [ { label := [ 'E', 'E', 'G' ], transducerType := [ 'A', 'g' ],
                   physicalDimension := [ 'u', 'V' ],
                   physicalMin := -500, physicalMax := 500,
                   digitalMin := -2048, digitalMax := 2047,
                   prefiltering := [], samplesPerRecord := 256, reserved := [] } ] }

/-- The same valid header with a nonempty signal `reserved` text. -/
def reservedHeader : Header :=
  { sampleHeader with
    signals := [ { label := [ 'E', 'E', 'G' ], transducerType := [ 'A', 'g' ],
                   physicalDimension := [ 'u', 'V' ],
                   physicalMin := -500, physicalMax := 500,
                   digitalMin := -2048, digitalMax := 2047,
                   prefiltering := [], samplesPerRecord := 256,
                   reserved := [ 'x' ] } ] }

attribute [local semireducible] Rat.add Rat.mul Rat.sub Rat.inv in
/-- Counterexample to C2 as stated: the valid header `reservedHeader`
(its signal `reserved` text is the one-byte `x`) encodes and decodes
successfully, but the decode does not reproduce every field other than
`headerBytes`/`dataRecordCount` — the signal `reserved` field comes back
empty, because the encoder writes blanks in the reserved slot. -/
theorem claim_C2_counterexample :
    validHeader reservedHeader ∧
    (writeHeader reservedHeader).bind Open
      ≠ .ok ({ reservedHeader with
               headerBytes := 256 + reservedHeader.signalCount * 256 }) := by
  refine ⟨by decide, ?_⟩
  rw [writeHeader_ok (by decide)]
  have hop : Open (headerChars reservedHeader ++ ([] : Str))
      = .ok (roundTripHeader reservedHeader) :=
    Open_headerChars (by decide) ([] : Str)
  rw [List.append_nil] at hop
  rw [except_bind_ok_eq, hop]
  intro h
  exact absurd (Except.ok.inj h) (by decide)

/-- C2 (amended): encoding a valid header and decoding the result
reproduces every field except `headerBytes`, which is recomputed as
256 + 256 × signalCount, and each signal's `reserved` text, which decodes
as empty because the encoder always writes blanks in that slot (the
`dataRecordCount` field round-trips as whatever sentinel or finalized
value the writer stored in it). -/
theorem claim_C2 {hdr : Header} (h : validHeader hdr) :
    (writeHeader hdr).bind Open = .ok (roundTripHeader hdr) := by
  rw [writeHeader_ok h]
  have hop := Open_headerChars h ([] : Str)
  rw [List.append_nil] at hop
  exact hop

attribute [local semireducible] Rat.add Rat.mul Rat.sub Rat.inv in
/-- Witness for C2 (amended) at the concrete test header. -/
theorem claim_C2_witness :
    validHeader sampleHeader ∧
    (writeHeader sampleHeader).bind Open = .ok (roundTripHeader sampleHeader) :=
  ⟨by decide, claim_C2 (by decide)⟩

/-! Writer state machine: Create / WriteRecord / Close flow. -/

theorem validHeader_setDataRecords {hdr : Header} {d : Int} (h : validHeader hdr)
    (hd : intFits d 8) : validHeader { hdr with dataRecords := d } := by
  obtain ⟨hsc, hv, hp, hr, hdt, hdm, hdf, _, hsc4, hsigs⟩ := h
  exact ⟨hsc, hv, hp, hr, hdt, hdm, hdf, hd, hsc4, hsigs⟩

theorem validHeader_setHeaderBytes {hdr : Header} {b : Int} (h : validHeader hdr) :
    validHeader { hdr with headerBytes := b } := by
  obtain ⟨hsc, hv, hp, hr, hdt, hdm, hdf, hdr8, hsc4, hsigs⟩ := h
  exact ⟨hsc, hv, hp, hr, hdt, hdm, hdf, hdr8, hsc4, hsigs⟩

theorem map_ofNat_strBytes (c : Str) : (strBytes c).map Char.ofNat = c := by
  induction c with
  | nil => rfl
  | cons a t ih =>
    rw [strBytes, List.map_cons, List.map_cons, Char.ofNat_toNat]
    rw [strBytes] at ih
    rw [ih]

theorem OpenFile_concat (c : Str) (body : List Nat) :
    OpenFile (strBytes c ++ body) = Open (c ++ body.map Char.ofNat) := by
  rw [OpenFile, List.map_append, map_ofNat_strBytes]

theorem OpenFile_strBytes (c : Str) : OpenFile (strBytes c) = Open c := by
  rw [OpenFile, map_ofNat_strBytes]

theorem Create_ok {hdr : Header} (h : validHeader hdr) :
    Create hdr = .ok
      { hdr := { hdr with dataRecords := -1, headerBytes := 256 + hdr.signalCount * 256 },
        dataRecords := 0,
        file := strBytes (headerChars { hdr with dataRecords := -1 }),
        pos := (strBytes (headerChars { hdr with dataRecords := -1 })).length } := by
  rw [Create, writeHeader_ok (validHeader_setDataRecords h (by decide))]

theorem WriteRecord_ok {ew : EDFWriter} {signals : List (List ℚ)}
    (hcount : (signals.length : Int) = ew.hdr.signalCount)
    (hsize : 2 * (totalSamples signals : Int) ≤ 61440) :
    WriteRecord ew signals = .ok
      { ew with file := writeAt ew.file ew.pos (recordBytes ew.hdr signals),
                pos := ew.pos + (recordBytes ew.hdr signals).length,
                dataRecords := ew.dataRecords + 1 } := by
  rw [WriteRecord, if_neg (not_not_intro hcount), if_neg (by omega)]

theorem Close_ok (ew : EDFWriter)
    (h : validHeader { ew.hdr with dataRecords := ew.dataRecords }) :
    Close ew = .ok
      { ew with
        hdr := { ew.hdr with dataRecords := ew.dataRecords, headerBytes := 256 + ew.hdr.signalCount * 256 },
        file := writeAt ew.file 0 (strBytes (headerChars { ew.hdr with dataRecords := ew.dataRecords })),
        pos := (strBytes (headerChars { ew.hdr with dataRecords := ew.dataRecords })).length } := by
  rw [Close, writeHeader_ok h]

theorem writeAt_at_end (file d : List Nat) : writeAt file file.length d = file ++ d := by
  rw [writeAt, List.take_length, List.drop_eq_nil_of_le (by omega), List.append_nil]

theorem writeAt_prefix (old body d : List Nat) (h : d.length = old.length) :
    writeAt (old ++ body) 0 d = d ++ body := by
  rw [writeAt, List.take_zero, List.nil_append, Nat.zero_add, h, List.drop_left]

theorem strBytes_length (c : Str) : (strBytes c).length = c.length := by
  rw [strBytes, List.length_map]

/-- Invariant preservation of successive `WriteRecord` calls: the sink
keeps its header-block prefix, stays append-only, and the record counter
advances by the number of records written. -/
theorem foldRecords (hdr1 : Header) (hc : List Nat) :
    ∀ (records : List (List (List ℚ))) (w : EDFWriter),
    (∀ r ∈ records, (r.length : Int) = hdr1.signalCount ∧ 2 * (totalSamples r : Int) ≤ 61440) →
    w.hdr = hdr1 → (∃ body, w.file = hc ++ body) → w.pos = w.file.length →
    ∃ wN, List.foldlM WriteRecord w records = .ok wN ∧ wN.hdr = hdr1 ∧
      wN.dataRecords = w.dataRecords + records.length ∧
      (∃ body, wN.file = hc ++ body) ∧ wN.pos = wN.file.length := by
  intro records
  induction records with
  | nil =>
    intro w _ hw hbody hpos
    exact ⟨w, rfl, hw, by simp, hbody, hpos⟩
  | cons r rs ih =>
    intro w hrec hw hbody hpos
    have h1 : WriteRecord w r = .ok
        { w with file := writeAt w.file w.pos (recordBytes w.hdr r),
                 pos := w.pos + (recordBytes w.hdr r).length,
                 dataRecords := w.dataRecords + 1 } :=
      WriteRecord_ok (by rw [hw]; exact (hrec r (by simp)).1) (hrec r (by simp)).2
    obtain ⟨body, hbodyEq⟩ := hbody
    have hfile : writeAt w.file w.pos (recordBytes w.hdr r) = w.file ++ recordBytes w.hdr r := by
      rw [hpos, writeAt_at_end]
    obtain ⟨wN, hfold, hwN, hdatN, hbodyN, hposN⟩ :=
      ih { w with file := writeAt w.file w.pos (recordBytes w.hdr r),
                  pos := w.pos + (recordBytes w.hdr r).length,
                  dataRecords := w.dataRecords + 1 }
        (fun x hx => hrec x (by simp [hx]))
        hw
        ⟨body ++ recordBytes w.hdr r, by
          show writeAt w.file w.pos (recordBytes w.hdr r) = hc ++ (body ++ recordBytes w.hdr r)
          rw [hfile, hbodyEq, List.append_assoc]⟩
        (by
          show w.pos + (recordBytes w.hdr r).length
            = (writeAt w.file w.pos (recordBytes w.hdr r)).length
          rw [hfile, List.length_append, hpos])
    refine ⟨wN, ?_, hwN, ?_, hbodyN, hposN⟩
    · rw [List.foldlM_cons, h1]
      exact hfold
    · rw [hdatN]
      push_cast [List.length_cons]
      ring

/-- C5: for every valid header, `Create` writes the provisional header with
`dataRecords = -1` regardless of the caller-supplied value (the provisional
file decodes to the `-1` sentinel), and after `N` successful `WriteRecord`
calls followed by `Close`, the header rewritten at offset 0 decodes with
`dataRecordCount` exactly `N`. -/
theorem claim_C5 {hdr : Header} (records : List (List (List ℚ)))
    (h : validHeader hdr)
    (hrec : ∀ r ∈ records, (r.length : Int) = hdr.signalCount ∧ 2 * (totalSamples r : Int) ≤ 61440)
    (hN : intFits (records.length : Int) 8) :
    ∃ w0 wN wC,
      Create hdr = .ok w0 ∧
      OpenFile w0.file = .ok (roundTripHeader { hdr with dataRecords := -1 }) ∧
      List.foldlM WriteRecord w0 records = .ok wN ∧
      Close wN = .ok wC ∧
      OpenFile wC.file = .ok (roundTripHeader { hdr with dataRecords := (records.length : Int) }) ∧
      wC.hdr.dataRecords = (records.length : Int) := by
  have hv1 : validHeader { hdr with dataRecords := -1 } :=
    validHeader_setDataRecords h (by decide)
  have hv2 : validHeader { hdr with dataRecords := (records.length : Int) } :=
    validHeader_setDataRecords h hN
  obtain ⟨wN, hfold, hwN, hdatN, ⟨body, hbodyN⟩, hposN⟩ :=
    foldRecords { hdr with dataRecords := -1, headerBytes := 256 + hdr.signalCount * 256 }
      (strBytes (headerChars { hdr with dataRecords := -1 })) records
      { hdr := { hdr with dataRecords := -1, headerBytes := 256 + hdr.signalCount * 256 },
        dataRecords := 0,
        file := strBytes (headerChars { hdr with dataRecords := -1 }),
        pos := (strBytes (headerChars { hdr with dataRecords := -1 })).length }
      hrec rfl ⟨[], (List.append_nil _).symm⟩ rfl
  have hdat : wN.dataRecords = (records.length : Int) := by rw [hdatN]; ring
  have hv2' : validHeader { wN.hdr with dataRecords := wN.dataRecords } := by
    rw [hwN, hdat]
    exact validHeader_setHeaderBytes hv2
  have hclose := Close_ok wN hv2'
  have hh2 : ({ wN.hdr with dataRecords := wN.dataRecords } : Header)
      = { hdr with dataRecords := (records.length : Int), headerBytes := 256 + hdr.signalCount * 256 } := by
    rw [hwN, hdat]
  have hlen : (strBytes (headerChars { wN.hdr with dataRecords := wN.dataRecords })).length
      = (strBytes (headerChars { hdr with dataRecords := -1 })).length := by
    rw [strBytes_length, strBytes_length, headerChars_length hv2', headerChars_length hv1, hwN]
  have hfileC : writeAt wN.file 0 (strBytes (headerChars { wN.hdr with dataRecords := wN.dataRecords }))
      = strBytes (headerChars { wN.hdr with dataRecords := wN.dataRecords }) ++ body := by
    rw [hbodyN]
    exact writeAt_prefix _ _ _ hlen
  refine ⟨_, wN, _, Create_ok h, ?_, hfold, hclose, ?_, hdat⟩
  · show OpenFile (strBytes (headerChars { hdr with dataRecords := -1 })) = _
    rw [OpenFile_strBytes]
    have ho := Open_headerChars hv1 []
    rwa [List.append_nil] at ho
  · show OpenFile (writeAt wN.file 0 (strBytes (headerChars { wN.hdr with dataRecords := wN.dataRecords }))) = _
    rw [hfileC, OpenFile_concat, hh2]
    exact Open_headerChars (validHeader_setHeaderBytes hv2) (body.map Char.ofNat)

attribute [local semireducible] Rat.add Rat.mul Rat.sub Rat.inv in
/-- Witness for C5: the concrete test header, one record of 256 zero
samples. -/
theorem claim_C5_witness :
    ∃ w0 wN wC,
      Create sampleHeader = .ok w0 ∧
      OpenFile w0.file = .ok (roundTripHeader { sampleHeader with dataRecords := -1 }) ∧
      List.foldlM WriteRecord w0 [ [ List.replicate 256 (0 : ℚ) ] ] = .ok wN ∧
      Close wN = .ok wC ∧
      OpenFile wC.file = .ok (roundTripHeader { sampleHeader with dataRecords := (([ [ List.replicate 256 (0 : ℚ) ] ].length : Nat) : Int) }) ∧
      wC.hdr.dataRecords = (([ [ List.replicate 256 (0 : ℚ) ] ].length : Nat) : Int) :=
  claim_C5 [ [ List.replicate 256 (0 : ℚ) ] ] (by decide)
    (by
      intro r hr
      rw [List.mem_singleton] at hr
      subst hr
      refine ⟨by decide, ?_⟩
      rw [totalSamples_single]
      decide)
    (by decide)

end EDF
